import Mathlib

/-!
Verification development for the tower-defence core: a shallow embedding of
the wave-orchestration state machine (WaveManager), the combat-resolution
engine (CombatSystem) and the spatial hash grid (SpatialGrid), together with
theorems checking the design document against the code.

Modelling conventions:
* JavaScript numbers are modelled as exact rationals where the code only
  uses field arithmetic, floor, ceil and rounding, and as real numbers where
  the code takes square roots (CombatSystem distances).  Float rounding
  error is not modelled.
* JavaScript `Math.round` rounds half away from zero for positive arguments;
  on the values involved here it agrees with `round half up`, modelled as
  `jsRound x = ⌊x + 1/2⌋`.
* Stateful classes become explicit state records; methods become functions
  from state to state, paired with the list of events they emit.
* `Math.random()`-driven choices (the Fisher-Yates shuffle) are modelled by
  an explicit oracle parameter `rand : ℕ → ℕ`; the code guarantees the
  drawn index lies in `[0, i]`, which the model encodes with `min (rand i) i`.
-/

namespace TD

/-- jsRound models JavaScript Math.round on the (nonnegative) values that the
game feeds it: round half up, as an integer. -/
def jsRound {α : Type} [LinearOrderedField α] [FloorRing α] (x : α) : ℤ :=
  ⌊x + 1 / 2⌋

-- ===========================================================================
-- CombatSystem.calculateDamage (src/systems/CombatSystem.ts, lines 244-267)
-- ===========================================================================

/-- DamageType from src/types/combat.ts. -/
inductive DamageType : Type
  | PHYSICAL
  | MAGICAL
  | TRUE
  deriving DecidableEq, Repr

/-- calculateDamage from CombatSystem.ts lines 244-267, flattened to the two
fields it reads (damageInfo.amount, damageInfo.type) and target.armor.
TRUE damage returns max(1, round(amount)); otherwise effectiveArmor is armor
(PHYSICAL) or armor * 0.7 (MAGICAL), reduction = eff / (eff + 100), and the
result is max(1, round(amount * (1 - reduction))). -/
def calculateDamage {α : Type} [LinearOrderedField α] [FloorRing α]
    (amount : α) (dtype : DamageType) (armor : α) : ℤ :=
  if dtype = DamageType.TRUE then
    max 1 (jsRound amount)
  else
    let effectiveArmor : α :=
      if dtype = DamageType.MAGICAL then armor * (7 / 10) else armor
    let reduction := effectiveArmor / (effectiveArmor + 100)
    max 1 (jsRound (amount * (1 - reduction)))

/-- Damage formula as the spec words it (section 4.2 Damage formula), for the
refinement comparison with the code: TRUE bypasses armor; PHYSICAL uses
reduction = armor/(armor+100); MAGICAL uses effectiveArmor = armor * 0.7;
the final result is always max(1, round(damage)). -/
def specDamage {α : Type} [LinearOrderedField α] [FloorRing α]
    (amount : α) (dtype : DamageType) (armor : α) : ℤ :=
  match dtype with
  | DamageType.TRUE => max 1 (jsRound amount)
  | DamageType.PHYSICAL =>
      max 1 (jsRound (amount * (1 - armor / (armor + 100))))
  | DamageType.MAGICAL =>
      max 1 (jsRound (amount * (1 - armor * (7 / 10) / (armor * (7 / 10) + 100))))

-- ===========================================================================
-- WaveManager state machine (src/systems/WaveManager.ts, lines 189-205)
-- ===========================================================================

/-- WaveManagerState from src/types (the five states of the wave machine). -/
inductive WaveManagerState : Type
  | IDLE
  | COUNTDOWN
  | SPAWNING
  | WAITING_FOR_CLEAR
  | COMPLETE
  deriving DecidableEq, Repr

/-- validTransitions, the transition table from WaveManager.transitionTo
(WaveManager.ts lines 190-196). -/
def validTransitions : WaveManagerState → List WaveManagerState
  | WaveManagerState.IDLE => [WaveManagerState.COUNTDOWN]
  | WaveManagerState.COUNTDOWN => [WaveManagerState.SPAWNING, WaveManagerState.IDLE]
  | WaveManagerState.SPAWNING => [WaveManagerState.WAITING_FOR_CLEAR, WaveManagerState.IDLE]
  | WaveManagerState.WAITING_FOR_CLEAR =>
      [WaveManagerState.COUNTDOWN, WaveManagerState.COMPLETE, WaveManagerState.IDLE]
  | WaveManagerState.COMPLETE => [WaveManagerState.IDLE]

/-- transitionTo (WaveManager.ts lines 189-205): an invalid transition is
ignored and the state is unchanged (the code additionally logs a warning,
see transitionWarns). -/
def transitionTo (s : WaveManagerState) (n : WaveManagerState) : WaveManagerState :=
  if n ∈ validTransitions s then n else s

/-- transitionWarns records the condition under which transitionTo logs its
console warning: exactly the transitions that the table rejects. -/
def transitionWarns (s : WaveManagerState) (n : WaveManagerState) : Bool :=
  decide (n ∉ validTransitions s)

-- ===========================================================================
-- Wave definitions and spawn-queue construction
-- (src/systems/WaveManager.ts, lines 518-616)
-- ===========================================================================

/-- EnemyType from src/types (the three wave-spawnable enemy kinds). -/
inductive EnemyType : Type
  | FAST
  | TANK
  | FLYING
  deriving DecidableEq, Repr, Inhabited

/-- WaveEnemySpawn: one enemy group of a wave definition, with the source
field names type, count, spawnDelay (type is spelled etype here).
Times are milliseconds. -/
structure WaveEnemySpawn : Type where
  etype : EnemyType
  count : ℕ
  spawnDelay : ℚ
  deriving DecidableEq, Repr, Inhabited

/-- WaveDefinition from src/types: an immutable wave template. -/
structure WaveDefinition : Type where
  waveNumber : ℕ
  startDelay : ℚ
  enemies : List WaveEnemySpawn
  deriving DecidableEq, Repr

/-- SpawnQueueEntry: a single timed spawn instruction (field names type and
spawnTime in the source; type is spelled etype here). -/
structure SpawnQueueEntry : Type where
  etype : EnemyType
  spawnTime : ℚ
  deriving DecidableEq, Repr

/-- SpawnMode from src/types. -/
inductive SpawnMode : Type
  | SEQUENTIAL
  | INTERLEAVED
  | RANDOM
  deriving DecidableEq, Repr

/-- Inner loop of buildSequentialQueue (WaveManager.ts lines 544-551): emit
count entries for one group, advancing the shared clock by spawnDelay after
each, returning the entries together with the clock value after the group. -/
def seqGroupEntries (etype : EnemyType) (delay : ℚ) :
    ℕ → ℚ → List SpawnQueueEntry × ℚ
  | 0, t => ([], t)
  | n + 1, t =>
      let rest := seqGroupEntries etype delay n (t + delay)
      (⟨etype, t⟩ :: rest.1, rest.2)

/-- Outer loop of buildSequentialQueue (WaveManager.ts lines 541-553): walk
the groups in order, the running clock continuing across groups. -/
def buildSeqAux : List WaveEnemySpawn → ℚ → List SpawnQueueEntry
  | [], _ => []
  | g :: gs, t =>
      let r := seqGroupEntries g.etype g.spawnDelay g.count t
      r.1 ++ buildSeqAux gs r.2

/-- buildSequentialQueue (WaveManager.ts lines 541-553). -/
def buildSequentialQueue (wave : WaveDefinition) : List SpawnQueueEntry :=
  buildSeqAux wave.enemies 0

/-- Spawn counter created by buildInterleavedQueue (WaveManager.ts lines
561-565): per-group type, remaining count and delay. -/
structure SpawnCounter : Type where
  etype : EnemyType
  remaining : ℕ
  delay : ℚ
  deriving DecidableEq, Repr, Inhabited

/-- initCounters: the spawnCounters array built at the top of
buildInterleavedQueue (WaveManager.ts lines 561-565). -/
def initCounters (gs : List WaveEnemySpawn) : List SpawnCounter :=
  gs.map (fun g => ⟨g.etype, g.count, g.spawnDelay⟩)

/-- Round-robin while-loop of buildInterleavedQueue (WaveManager.ts lines
567-585), one recursive call per loop iteration.  The loop keeps a single
shared clock currentTime; at the counter selected by typeIndex it emits one
entry at the shared clock (if the counter still has remaining spawns) and
advances the shared clock by that counter's delay, then steps
typeIndex := (typeIndex + 1) % length and re-tests the loop condition
`some counter has remaining > 0`.  The fuel argument bounds the number of
loop iterations; buildInterleavedQueue passes a bound that the refinement
theorem for the loop shows is never exhausted. -/
def interLoopF : ℕ → List SpawnCounter → ℚ → ℕ → List SpawnQueueEntry
  | 0, _, _, _ => []
  | fuel + 1, cs, time, idx =>
      if cs.any (fun c => decide (0 < c.remaining)) then
        let c := cs.getD (idx % cs.length) default
        if 0 < c.remaining then
          ⟨c.etype, time⟩ ::
            interLoopF fuel
              (cs.set (idx % cs.length) ⟨c.etype, c.remaining - 1, c.delay⟩)
              (time + c.delay) ((idx + 1) % cs.length)
        else
          interLoopF fuel cs time ((idx + 1) % cs.length)
      else []

/-- maxCount: the largest group count of a wave; an upper bound on the number
of round-robin rounds the interleaved loop performs. -/
def maxCount (gs : List WaveEnemySpawn) : ℕ :=
  (gs.map (fun g => g.count)).foldr max 0

/-- buildInterleavedQueue (WaveManager.ts lines 559-586).  The fuel
maxCount * length + length + 1 strictly exceeds the iteration count of the
while-loop (each full round of length iterations decrements every nonempty
counter once, so the loop ends within maxCount rounds plus one final
partial scan). -/
def buildInterleavedQueue (wave : WaveDefinition) : List SpawnQueueEntry :=
  interLoopF (maxCount wave.enemies * wave.enemies.length + wave.enemies.length + 1)
    (initCounters wave.enemies) 0 0

/-- swapL: the destructuring swap pool[i], pool[j] = pool[j], pool[i] used by
the Fisher-Yates loop in buildRandomQueue (WaveManager.ts line 604). -/
def swapL {α : Type} (l : List α) (i j : ℕ) : List α :=
  match l[i]?, l[j]? with
  | some a, some b => (l.set i b).set j a
  | _, _ => l

/-- fyGo: the Fisher-Yates loop of buildRandomQueue (WaveManager.ts lines
602-605), iterating i from pool.length - 1 down to 1; rand i stands for the
outcome of Math.floor(Math.random() * (i + 1)), which always lies in
[0, i] - the model encodes that guarantee with min (rand i) i. -/
def fyGo {α : Type} (rand : ℕ → ℕ) : ℕ → List α → List α
  | 0, l => l
  | i + 1, l => fyGo rand i (swapL l (i + 1) (min (rand (i + 1)) (i + 1)))

/-- fisherYates: the full shuffle of buildRandomQueue. -/
def fisherYates {α : Type} (l : List α) (rand : ℕ → ℕ) : List α :=
  fyGo rand (l.length - 1) l

/-- buildRandomPool: the flat pool of (type, delay) pairs built by
buildRandomQueue (WaveManager.ts lines 594-599). -/
def buildRandomPool (gs : List WaveEnemySpawn) : List (EnemyType × ℚ) :=
  gs.flatMap (fun g => List.replicate g.count (g.etype, g.spawnDelay))

/-- layTimes: walk a list of (type, delay) pairs, emitting each entry at the
running clock and then advancing the clock by that entry's own delay.  This
is the queue layout loop of buildRandomQueue (WaveManager.ts lines 608-615)
and also the time layout of the shared-clock characterisation of the
interleaved builder. -/
def layTimes : ℚ → List (EnemyType × ℚ) → List SpawnQueueEntry
  | _, [] => []
  | t, (ty, d) :: rest => ⟨ty, t⟩ :: layTimes (t + d) rest

/-- buildRandomQueue (WaveManager.ts lines 592-616), parameterised by the
random oracle. -/
def buildRandomQueue (wave : WaveDefinition) (rand : ℕ → ℕ) : List SpawnQueueEntry :=
  layTimes 0 (fisherYates (buildRandomPool wave.enemies) rand)

/-- spawnTimeLE: the comparator (a, b) => a.spawnTime - b.spawnTime of
buildSpawnQueue's final sort, as a boolean less-or-equal (the engine's sort
is stable, as is mergeSort). -/
def spawnTimeLE (a b : SpawnQueueEntry) : Bool :=
  decide (a.spawnTime ≤ b.spawnTime)

/-- buildSpawnQueue (WaveManager.ts lines 518-536): dispatch on the spawn
mode, then sort the result ascending by spawnTime. -/
def buildSpawnQueue (wave : WaveDefinition) (mode : SpawnMode) (rand : ℕ → ℕ) :
    List SpawnQueueEntry :=
  let q :=
    match mode with
    | SpawnMode.INTERLEAVED => buildInterleavedQueue wave
    | SpawnMode.RANDOM => buildRandomQueue wave rand
    | SpawnMode.SEQUENTIAL => buildSequentialQueue wave
  q.mergeSort spawnTimeLE

-- ===========================================================================
-- Characterisations of the interleaved builder (for claim C3)
-- ===========================================================================

/-- roundEntries: the (type, delay) pairs of the groups still pending in
round r (those with r < count), in group order. -/
def roundEntries (gs : List WaveEnemySpawn) (r : ℕ) : List (EnemyType × ℚ) :=
  (gs.filter (fun g => decide (r < g.count))).map (fun g => (g.etype, g.spawnDelay))

/-- roundsFromAux: concatenation of roundEntries for rounds r, r+1, ... with
the given fuel bounding how many rounds remain. -/
def roundsFromAux (gs : List WaveEnemySpawn) : ℕ → ℕ → List (EnemyType × ℚ)
  | 0, _ => []
  | fuel + 1, r => roundEntries gs r ++ roundsFromAux gs fuel (r + 1)

/-- interleavedSharedClock: shared-clock round-robin characterisation of the
interleaved builder - the emission order is round-robin over the groups
(each round emitting one entry for every group not yet exhausted), and the
k-th emitted entry is placed at the sum of the delays of the previously
emitted entries (a single shared clock). -/
def interleavedSharedClock (gs : List WaveEnemySpawn) : List SpawnQueueEntry :=
  layTimes 0 (roundsFromAux gs (maxCount gs) 0)

/-- interleavedPerGroupClock: the queue that claim C3 (and the design
document's Interleaved bullet) describes, with an independent running clock
per group: in round-robin emission order, the r-th entry of group g is
placed at r * g.spawnDelay, because only that group's clock advances, and
only by its own delay. -/
def interleavedPerGroupClock (gs : List WaveEnemySpawn) : List SpawnQueueEntry :=
  (List.range (maxCount gs)).flatMap (fun r =>
    (gs.filter (fun g => decide (r < g.count))).map
      (fun g => ⟨g.etype, (r : ℚ) * g.spawnDelay⟩))

/-- counters gs r idx: the spawnCounters array as it stands mid-loop, when
every group has been served r full rounds and the groups before position idx
have additionally been served once in the current round. -/
def counters : List WaveEnemySpawn → ℕ → ℕ → List SpawnCounter
  | [], _, _ => []
  | g :: gs, r, 0 => ⟨g.etype, g.count - r, g.spawnDelay⟩ :: counters gs r 0
  | g :: gs, r, idx + 1 => ⟨g.etype, g.count - r - 1, g.spawnDelay⟩ :: counters gs r idx

-- ===========================================================================
-- WaveManager: configuration, state record and operations
-- (src/systems/WaveManager.ts)
-- ===========================================================================

/-- DifficultyScaling from src/types: a pure multiplier bundle. -/
structure DifficultyScaling : Type where
  healthMultiplier : ℚ
  speedMultiplier : ℚ
  rewardMultiplier : ℚ
  countMultiplier : ℚ
  deriving DecidableEq, Repr

/-- normalDifficulty: DIFFICULTY_PRESETS.normal (WaveConfig.ts), all
multipliers 1.0. -/
def normalDifficulty : DifficultyScaling := ⟨1, 1, 1, 1⟩

/-- getScaledWaveDefinition (WaveConfig.ts): scales each group's count by
countMultiplier, rounded.  Counts are nonnegative, so the rounded value is
taken back to ℕ with toNat. -/
def getScaledWaveDefinition (wave : WaveDefinition) (scaling : DifficultyScaling) :
    WaveDefinition :=
  { wave with
    enemies := wave.enemies.map (fun g =>
      { g with count := (jsRound ((g.count : ℚ) * scaling.countMultiplier)).toNat }) }

/-- getWaveEnemyCount (WaveConfig.ts): total enemies in a wave. -/
def getWaveEnemyCount (wave : WaveDefinition) : ℕ :=
  (wave.enemies.map (fun g => g.count)).sum

/-- Modelled from the spec: generateEndlessWave, whose definition is not in
the provided sources (WaveManager.ts imports it from WaveConfig.ts, but the
available WaveConfig excerpt ends before it).  Section 4.1 Endless mode:
cyclePosition = index % baseCount, cycleNumber = floor(index / baseCount),
scaleFactor = 1 + cycleNumber * 0.5 + cyclePosition * 0.05; counts scale by
scaleFactor (rounded), spawn delays shrink by cycleNumber * 50 ms floored at
200 ms, and startDelay shrinks similarly floored at 1000 ms.  It is only
reached when endlessMode is on, which no claim exercises. -/
def generateEndlessWave (index : ℕ) (waves : List WaveDefinition) : WaveDefinition :=
  let baseCount := waves.length
  let cyclePosition := index % baseCount
  let cycleNumber := index / baseCount
  let baseWave := (waves.getD cyclePosition ⟨0, 0, []⟩)
  let scaleFactor : ℚ := 1 + (cycleNumber : ℚ) * (1 / 2) + (cyclePosition : ℚ) * (1 / 20)
  { waveNumber := index + 1
    startDelay := max 1000 (3000 - (cycleNumber : ℚ) * 200)
    enemies := baseWave.enemies.map (fun g =>
      { g with
        count := (jsRound ((g.count : ℚ) * scaleFactor)).toNat
        spawnDelay := max 200 (g.spawnDelay - (cycleNumber : ℚ) * 50) }) }

/-- WAVE_TIMING.timeBetweenWaves (WaveConfig.ts): 10000 ms. -/
def timeBetweenWaves : ℚ := 10000

/-- WAVE_TIMING.countdownTickInterval (WaveConfig.ts): 1000 ms. -/
def countdownTickInterval : ℚ := 1000

/-- Wave lifecycle events emitted by WaveManager (src/types WaveEventType
and the event payload interfaces).  Wave numbers derived from the -1-based
currentWaveIndex are carried as integers. -/
inductive WaveEvent : Type
  | waveStarted (waveNumber : ℤ) (totalEnemies : ℕ)
  | waveCompleted (waveNumber : ℤ) (enemiesKilled : ℕ) (enemiesLeaked : ℕ)
  | allWavesCompleted (totalWaves : ℤ) (totalKills : ℕ) (totalLeaked : ℕ)
  | countdownStarted (nextWave : ℤ) (duration : ℚ)
  | countdownTick (nextWave : ℤ) (timeRemaining : ℚ)
  | enemySpawned (etype : EnemyType) (waveNumber : ℤ) (spawnIndex : ℕ) (totalInWave : ℕ)
  deriving DecidableEq, Repr

/-- WM: the mutable state of a WaveManager instance.  The enemy manager is
external; its spawnEnemy side effect is outside the model and its
getActiveEnemyCount answer enters as an argument of update and
checkWaveCompletion.  rand is the oracle feeding buildRandomQueue.

The source declares isActive / isComplete / isCountingDown as derived
getters over _state (WaveManager.ts lines 80-89); the three leftover
assignments to isCountingDown (lines 229, 725, 758) target a getter that
has no setter and therefore cannot change _state - the model renders them
as no-ops on the state machine. -/
structure WM : Type where
  state : WaveManagerState
  currentWaveIndex : ℤ
  isPaused : Bool
  spawnQueue : List SpawnQueueEntry
  spawnQueueIndex : ℕ
  waveElapsedTime : ℚ
  countdownTime : ℚ
  countdownElapsed : ℚ
  lastCountdownTick : ℤ
  enemiesSpawnedThisWave : ℕ
  enemiesKilledThisWave : ℕ
  enemiesLeakedThisWave : ℕ
  totalEnemiesKilled : ℕ
  totalEnemiesLeaked : ℕ
  waves : List WaveDefinition
  difficulty : DifficultyScaling
  autoStartWaves : Bool
  endlessMode : Bool
  spawnMode : SpawnMode
  rand : ℕ → ℕ

/-- mkWaveManager: the constructor's initial state (WaveManager.ts lines
116-139) with the given configuration (difficulty defaulting to normal,
autoStartWaves true, endlessMode false, as in the source defaults). -/
def mkWaveManager (waves : List WaveDefinition) (mode : SpawnMode) (rand : ℕ → ℕ) : WM :=
  { state := WaveManagerState.IDLE
    currentWaveIndex := -1
    isPaused := false
    spawnQueue := []
    spawnQueueIndex := 0
    waveElapsedTime := 0
    countdownTime := 0
    countdownElapsed := 0
    lastCountdownTick := 0
    enemiesSpawnedThisWave := 0
    enemiesKilledThisWave := 0
    enemiesLeakedThisWave := 0
    totalEnemiesKilled := 0
    totalEnemiesLeaked := 0
    waves := waves
    difficulty := normalDifficulty
    autoStartWaves := true
    endlessMode := false
    spawnMode := mode
    rand := rand }

/-- isActive getter (WaveManager.ts lines 81-83). -/
def WM.isActive (w : WM) : Bool :=
  decide (w.state ≠ WaveManagerState.IDLE ∧ w.state ≠ WaveManagerState.COMPLETE)

/-- isCountingDown getter (WaveManager.ts lines 87-89). -/
def WM.isCountingDown (w : WM) : Bool :=
  decide (w.state = WaveManagerState.COUNTDOWN)

/-- getWaveDefinition (WaveManager.ts lines 812-824). -/
def WM.getWaveDefinition (w : WM) (index : ℤ) : WaveDefinition :=
  if index < (w.waves.length : ℤ) then
    w.waves.getD index.toNat ⟨0, 0, []⟩
  else if w.endlessMode then
    generateEndlessWave index.toNat w.waves
  else
    w.waves.getD (w.waves.length - 1) ⟨0, 0, []⟩

/-- startCountdown (WaveManager.ts lines 724-734): resets the countdown
clock and emits countdownStarted.  The assignment isCountingDown = true on
line 725 targets the derived getter and cannot change _state. -/
def WM.startCountdown (w : WM) (duration : ℚ) : WM × List WaveEvent :=
  ({ w with
      countdownTime := duration
      countdownElapsed := 0
      lastCountdownTick := 0 },
   [WaveEvent.countdownStarted (w.currentWaveIndex + 2) duration])

/-- completeAllWaves (WaveManager.ts lines 710-718). -/
def WM.completeAllWaves (w : WM) : WM × List WaveEvent :=
  ({ w with state := transitionTo w.state WaveManagerState.COMPLETE },
   [WaveEvent.allWavesCompleted (w.currentWaveIndex + 1) w.totalEnemiesKilled
      w.totalEnemiesLeaked])

/-- completeCurrentWave (WaveManager.ts lines 686-708): emit waveCompleted,
accumulate totals, then either finish all waves or start the next
countdown. -/
def WM.completeCurrentWave (w : WM) : WM × List WaveEvent :=
  let ev := WaveEvent.waveCompleted (w.currentWaveIndex + 1)
    w.enemiesKilledThisWave w.enemiesLeakedThisWave
  let w1 := { w with
    totalEnemiesKilled := w.totalEnemiesKilled + w.enemiesKilledThisWave
    totalEnemiesLeaked := w.totalEnemiesLeaked + w.enemiesLeakedThisWave }
  if ¬w1.endlessMode ∧ (w1.waves.length : ℤ) ≤ w1.currentWaveIndex + 1 then
    let r := w1.completeAllWaves
    (r.1, ev :: r.2)
  else if w1.autoStartWaves then
    let r := w1.startCountdown timeBetweenWaves
    (r.1, ev :: r.2)
  else
    (w1, [ev])

/-- beginWave (WaveManager.ts lines 481-516): advance the wave index, either
finish (past the last wave, no endless mode) or transition to SPAWNING,
build the spawn queue for the difficulty-scaled wave, and reset the per-wave
clock (a positive startDelay is encoded as a negative starting offset). -/
def WM.beginWave (w : WM) : WM × List WaveEvent :=
  let idx := w.currentWaveIndex + 1
  let w0 := { w with currentWaveIndex := idx }
  if ¬w0.endlessMode ∧ (w0.waves.length : ℤ) ≤ idx then
    w0.completeAllWaves
  else
    let scaledWave := getScaledWaveDefinition (w0.getWaveDefinition idx) w0.difficulty
    let queue := buildSpawnQueue scaledWave w0.spawnMode w0.rand
    ({ w0 with
        state := transitionTo w0.state WaveManagerState.SPAWNING
        enemiesSpawnedThisWave := 0
        enemiesKilledThisWave := 0
        enemiesLeakedThisWave := 0
        spawnQueue := queue
        spawnQueueIndex := 0
        waveElapsedTime := if 0 < scaledWave.startDelay then -scaledWave.startDelay else 0 },
     [WaveEvent.waveStarted (idx + 1) (getWaveEnemyCount scaledWave)])

/-- spawnEnemy (WaveManager.ts lines 639-658): count the spawn and emit
enemySpawned; the call into the external enemy manager is a side effect
outside the model. -/
def WM.spawnEnemy (w : WM) (etype : EnemyType) : WM × List WaveEvent :=
  let w1 := { w with enemiesSpawnedThisWave := w.enemiesSpawnedThisWave + 1 }
  let totalInWave := getWaveEnemyCount
    (getScaledWaveDefinition (w1.getWaveDefinition w1.currentWaveIndex) w1.difficulty)
  (w1, [WaveEvent.enemySpawned etype (w1.currentWaveIndex + 1)
    w1.enemiesSpawnedThisWave totalInWave])

/-- While-loop of updateWaveSpawning (WaveManager.ts lines 627-636): spawn
every queue entry whose spawnTime has been reached, in order.  Recursion is
on the number of unspawned queue entries. -/
def WM.spawnLoop (w : WM) : WM × List WaveEvent :=
  if _h : w.spawnQueueIndex < w.spawnQueue.length then
    let entry := w.spawnQueue.getD w.spawnQueueIndex ⟨EnemyType.FAST, 0⟩
    if entry.spawnTime ≤ w.waveElapsedTime then
      let r1 := w.spawnEnemy entry.etype
      let r2 := WM.spawnLoop { r1.1 with spawnQueueIndex := r1.1.spawnQueueIndex + 1 }
      (r2.1, r1.2 ++ r2.2)
    else (w, [])
  else (w, [])
termination_by w.spawnQueue.length - w.spawnQueueIndex
decreasing_by
  simp only [WM.spawnEnemy]
  omega

/-- updateWaveSpawning (WaveManager.ts lines 618-637). -/
def WM.updateWaveSpawning (w : WM) (deltaMs : ℚ) : WM × List WaveEvent :=
  let w1 := { w with waveElapsedTime := w.waveElapsedTime + deltaMs }
  if w1.waveElapsedTime < 0 then (w1, [])
  else w1.spawnLoop

/-- checkWaveCompletion (WaveManager.ts lines 660-684), with the external
manager's getActiveEnemyCount answer passed in as activeEnemies. -/
def WM.checkWaveCompletion (w : WM) (activeEnemies : ℕ) : WM × List WaveEvent :=
  if w.spawnQueueIndex < w.spawnQueue.length then (w, [])
  else
    let w1 :=
      if w.state = WaveManagerState.SPAWNING then
        { w with state := transitionTo w.state WaveManagerState.WAITING_FOR_CLEAR }
      else w
    if w1.enemiesSpawnedThisWave ≤ w1.enemiesKilledThisWave + w1.enemiesLeakedThisWave
        ∧ activeEnemies = 0 then
      w1.completeCurrentWave
    else (w1, [])

/-- updateCountdown (WaveManager.ts lines 736-761): advance the countdown
clock; emit one countdownTick if floor(elapsed / tickInterval) exceeds the
recorded lastCountdownTick (which then jumps to the new value); when the
countdown has elapsed, begin the wave (the isCountingDown = false
assignment on line 758 targets the derived getter, a no-op on _state). -/
def WM.updateCountdown (w : WM) (deltaMs : ℚ) : WM × List WaveEvent :=
  let w1 := { w with countdownElapsed := w.countdownElapsed + deltaMs }
  let ticksSinceStart : ℤ := ⌊w1.countdownElapsed / countdownTickInterval⌋
  let r1 :=
    if w1.lastCountdownTick < ticksSinceStart then
      ({ w1 with lastCountdownTick := ticksSinceStart },
       [WaveEvent.countdownTick (w1.currentWaveIndex + 2)
          (max 0 (w1.countdownTime - w1.countdownElapsed))])
    else (w1, ([] : List WaveEvent))
  if r1.1.countdownTime ≤ r1.1.countdownElapsed then
    let r2 := r1.1.beginWave
    (r2.1, r1.2 ++ r2.2)
  else r1

/-- update (WaveManager.ts lines 406-420): deltaTime is in seconds and is
converted to milliseconds; activeEnemies is the external manager's
getActiveEnemyCount answer, consulted by checkWaveCompletion. -/
def WM.update (w : WM) (deltaTime : ℚ) (activeEnemies : ℕ) : WM × List WaveEvent :=
  if ¬w.isActive ∨ w.isPaused then (w, [])
  else
    let deltaMs := deltaTime * 1000
    if w.isCountingDown then
      w.updateCountdown deltaMs
    else if 0 ≤ w.currentWaveIndex then
      let r1 := w.updateWaveSpawning deltaMs
      let r2 := r1.1.checkWaveCompletion activeEnemies
      (r2.1, r1.2 ++ r2.2)
    else (w, [])

/-- start (WaveManager.ts lines 148-161). -/
def WM.start (w : WM) : WM × List WaveEvent :=
  if w.isActive then (w, [])
  else
    let w1 := { w with
      state := transitionTo w.state WaveManagerState.COUNTDOWN
      isPaused := false
      currentWaveIndex := -1
      enemiesSpawnedThisWave := 0
      enemiesKilledThisWave := 0
      enemiesLeakedThisWave := 0
      totalEnemiesKilled := 0
      totalEnemiesLeaked := 0 }
    w1.startCountdown timeBetweenWaves

/-- skipCurrentWave (WaveManager.ts lines 248-259): when active with a
current wave, discard the spawn queue and mark the wave complete - without
consulting the kill/leak counters or the external active-enemy count. -/
def WM.skipCurrentWave (w : WM) : WM × List WaveEvent :=
  if ¬w.isActive ∨ w.currentWaveIndex < 0 then (w, [])
  else
    WM.completeCurrentWave { w with spawnQueue := [], spawnQueueIndex := 0 }

/-- onEnemyKilled (WaveManager.ts lines 777-781). -/
def WM.onEnemyKilled (w : WM) : WM :=
  if w.isActive ∧ 0 ≤ w.currentWaveIndex then
    { w with enemiesKilledThisWave := w.enemiesKilledThisWave + 1 }
  else w

/-- onEnemyReachedEnd (WaveManager.ts lines 783-787). -/
def WM.onEnemyReachedEnd (w : WM) : WM :=
  if w.isActive ∧ 0 ≤ w.currentWaveIndex then
    { w with enemiesLeakedThisWave := w.enemiesLeakedThisWave + 1 }
  else w

/-- runUpdates: a host loop calling update once per frame with the given
per-frame deltaTime values and a fixed external active-enemy count,
accumulating the emitted events. -/
def runUpdates (w : WM) (active : ℕ) : List ℚ → WM × List WaveEvent
  | [] => (w, [])
  | d :: ds =>
      let r1 := w.update d active
      let r2 := runUpdates r1.1 active ds
      (r2.1, r1.2 ++ r2.2)

/-- isTickEvent: recogniser for countdownTick events. -/
def isTickEvent : WaveEvent → Bool
  | WaveEvent.countdownTick _ _ => true
  | _ => false

/-- countTicks: number of countdownTick events in an event list. -/
def countTicks (evs : List WaveEvent) : ℕ :=
  (evs.filter isTickEvent).length

/-- isWaveCompletedEvent: recogniser for waveCompleted events. -/
def isWaveCompletedEvent : WaveEvent → Bool
  | WaveEvent.waveCompleted _ _ _ => true
  | _ => false

/-- crossings: for a starting elapsed time (ms) and a list of per-call
millisecond increments, the number of calls at which
floor(elapsed / countdownTickInterval) strictly increases. -/
def crossings : ℚ → List ℚ → ℕ
  | _, [] => 0
  | e, d :: ds =>
      (if ⌊e / countdownTickInterval⌋ < ⌊(e + d) / countdownTickInterval⌋ then 1 else 0) +
        crossings (e + d) ds

-- ===========================================================================
-- SpatialGrid (src/unnamed/part_009)
-- ===========================================================================

/-- Bounds: an axis-aligned bounding box {x, y, width, height}, generic in
the number type (rationals for the grid, reals for combat). -/
structure Bounds (α : Type) : Type where
  x : α
  y : α
  width : α
  height : α
  deriving DecidableEq, Repr

/-- intRange lo hi: the integers lo, lo+1, ..., hi (empty when hi < lo),
modelling a for-loop from lo to hi inclusive. -/
def intRange (lo hi : ℤ) : List ℤ :=
  (List.range (hi + 1 - lo).toNat).map (fun (i : ℕ) => lo + (i : ℤ))

/-- SpatialGrid: the grid dimensions fixed at construction
(part_009 lines 28-32): cols = ceil(worldWidth / cellSize),
rows = ceil(worldHeight / cellSize). -/
structure SpatialGrid : Type where
  cols : ℤ
  rows : ℤ
  cellSize : ℚ
  deriving DecidableEq, Repr

/-- mkSpatialGrid: the SpatialGrid constructor. -/
def mkSpatialGrid (worldWidth worldHeight cellSize : ℚ) : SpatialGrid :=
  ⟨⌈worldWidth / cellSize⌉, ⌈worldHeight / cellSize⌉, cellSize⟩

/-- getCellIndices (part_009 lines 49-64): the cell indices a bounding box
overlaps; each side of the column/row window is clamped one-sidedly
(minimum against 0, maximum against cols-1 / rows-1), and the nested loops
run row-major over the resulting window. -/
def SpatialGrid.getCellIndices (g : SpatialGrid) (b : Bounds ℚ) : List ℤ :=
  let minCol := max 0 ⌊b.x / g.cellSize⌋
  let maxCol := min (g.cols - 1) ⌊(b.x + b.width) / g.cellSize⌋
  let minRow := max 0 ⌊b.y / g.cellSize⌋
  let maxRow := min (g.rows - 1) ⌊(b.y + b.height) / g.cellSize⌋
  (intRange minRow maxRow).flatMap (fun row =>
    (intRange minCol maxCol).map (fun col => row * g.cols + col))

/-- lookupAssoc: association-list lookup, modelling Map.get. -/
def lookupAssoc {κ β : Type} [DecidableEq κ] : List (κ × β) → κ → Option β
  | [], _ => none
  | (k, v) :: rest, key => if key = k then some v else lookupAssoc rest key

/-- setAssoc: association-list update, modelling Map.set. -/
def setAssoc {κ β : Type} [DecidableEq κ] : List (κ × β) → κ → β → List (κ × β)
  | [], key, v => [(key, v)]
  | (k, v0) :: rest, key, v =>
      if key = k then (k, v) :: rest else (k, v0) :: setAssoc rest key v

/-- addToSet: JavaScript Set.add, as an append-if-absent on a list. -/
def addToSet {α : Type} [DecidableEq α] (s : List α) (a : α) : List α :=
  if a ∈ s then s else s ++ [a]

/-- GridState: the two mutable indices of a SpatialGrid instance - cell
index to entity keys, and entity key to occupied cell indices. -/
structure GridState : Type where
  cells : List (ℤ × List String)
  entityCells : List (String × List ℤ)
  deriving DecidableEq, Repr

/-- emptyGridState: a freshly constructed grid has no entries. -/
def emptyGridState : GridState := ⟨[], []⟩

/-- insert (part_009 lines 71-87): compute the overlapped cell indices,
ensure the entity has an entry in entityCells (created empty if absent, even
when no cell is overlapped), then add the entity to each overlapped cell and
each overlapped cell to the entity's set. -/
def SpatialGrid.insert (g : SpatialGrid) (st : GridState) (entity : String)
    (b : Bounds ℚ) : GridState :=
  let cellIndices := g.getCellIndices b
  let baseSet := (lookupAssoc st.entityCells entity).getD []
  let newCells := cellIndices.foldl
    (fun cells index =>
      setAssoc cells index (addToSet ((lookupAssoc cells index).getD []) entity))
    st.cells
  let newSet := cellIndices.foldl addToSet baseSet
  ⟨newCells, setAssoc st.entityCells entity newSet⟩

/-- occupiedCells: the set of cell indices recorded for an entity (empty if
the entity is not present at all). -/
def occupiedCells (st : GridState) (entity : String) : List ℤ :=
  (lookupAssoc st.entityCells entity).getD []

-- ===========================================================================
-- CombatSystem (src/systems/CombatSystem.ts), over the reals because the
-- engine takes Euclidean square roots for distances
-- ===========================================================================

noncomputable section

/-- Position: a 2D point. -/
structure Position : Type where
  x : ℝ
  y : ℝ

/-- ProjectileType from src/types/combat.ts. -/
inductive ProjectileType : Type
  | bullet
  | arrow
  | magic
  deriving DecidableEq, Repr

/-- Target: the ITarget state as implemented by the Enemy class
(part_016): position, half-extent bounding box, health, armor and the
entity active flag.  The field names twidth/theight stand for the source's
_width/_height. -/
structure Target : Type where
  id : String
  health : ℝ
  maxHealth : ℝ
  armor : ℝ
  x : ℝ
  y : ℝ
  twidth : ℝ
  theight : ℝ
  active : Bool

/-- getTargetPosition (part_016). -/
def Target.getTargetPosition (t : Target) : Position := ⟨t.x, t.y⟩

/-- getEntityBounds (part_016 lines 144-151): centred box. -/
def Target.getEntityBounds (t : Target) : Bounds ℝ :=
  ⟨t.x - t.twidth / 2, t.y - t.theight / 2, t.twidth, t.theight⟩

/-- isAlive getter (part_016 lines 115-117): health > 0 and entity active. -/
def Target.isAlive (t : Target) : Prop :=
  0 < t.health ∧ t.active = true

instance (t : Target) : Decidable t.isAlive := by
  unfold Target.isAlive
  infer_instance

/-- takeDamage (part_016 lines 119-142): a dead target ignores the call;
otherwise health is clamped at 0 from below, and on reaching 0 the entity
deactivates. -/
noncomputable def Target.takeDamage (t : Target) (amount : ℝ) : Target :=
  if ¬t.isAlive then t
  else
    let t1 := { t with health := max 0 (t.health - amount) }
    if t1.health ≤ 0 then { t1 with active := false } else t1

/-- Projectile: the combat-relevant state of a projectile (part_014):
position, size, config damage / speed / pierce / areaRadius, accumulated
hits, the target point, and the active flag. -/
structure Projectile : Type where
  id : String
  x : ℝ
  y : ℝ
  pwidth : ℝ
  pheight : ℝ
  ptype : ProjectileType
  damage : ℝ
  speed : ℝ
  pierce : ℕ
  areaRadius : ℝ
  hitCount : ℕ
  hitTargetIds : List String
  targetX : ℝ
  targetY : ℝ
  active : Bool

/-- getPosition for a projectile. -/
def Projectile.getPosition (p : Projectile) : Position := ⟨p.x, p.y⟩

/-- getEntityBounds for a projectile (Entity.ts lines 148-155): centred
box. -/
def Projectile.getEntityBounds (p : Projectile) : Bounds ℝ :=
  ⟨p.x - p.pwidth / 2, p.y - p.pheight / 2, p.pwidth, p.pheight⟩

/-- getDamageInfo (part_014 lines 114-121): magic projectiles deal MAGICAL
damage, all others PHYSICAL; the amount is the configured damage. -/
def Projectile.getDamageInfo (p : Projectile) : ℝ × DamageType :=
  (p.damage,
   if p.ptype = ProjectileType.magic then DamageType.MAGICAL else DamageType.PHYSICAL)

/-- hasPierceLeft: the condition pierceRemaining > 0 of part_014 lines
90-93, where pierce = 0 is the sentinel for unlimited (Infinity). -/
def Projectile.hasPierceLeft (p : Projectile) : Bool :=
  p.pierce == 0 || decide (p.hitCount < p.pierce)

/-- canHitTarget (part_014 lines 127-129). -/
def Projectile.canHitTarget (p : Projectile) (targetId : String) : Bool :=
  !(p.hitTargetIds.contains targetId) && p.hasPierceLeft

/-- registerHit (part_014 lines 135-141): record the target id, bump the
hit count, and report whether the projectile may continue flying. -/
def Projectile.registerHit (p : Projectile) (targetId : String) :
    Projectile × Bool :=
  let p1 := { p with
    hitTargetIds := p.hitTargetIds ++ [targetId]
    hitCount := p.hitCount + 1 }
  (p1, p1.hasPierceLeft)

/-- hasAreaDamage (part_014 lines 99-101). -/
def Projectile.hasAreaDamage (p : Projectile) : Prop :=
  p.pierce = 0 ∧ 0 < p.areaRadius

instance (p : Projectile) : Decidable p.hasAreaDamage := by
  unfold Projectile.hasAreaDamage
  infer_instance

/-- hasReachedTarget (part_014 lines 146-149): within two frames of travel
of the target point, with distanceTo from Entity.ts (Euclidean). -/
def Projectile.hasReachedTarget (p : Projectile) : Prop :=
  Real.sqrt ((p.targetX - p.x) ^ 2 + (p.targetY - p.y) ^ 2) < p.speed * 2

instance (p : Projectile) : Decidable p.hasReachedTarget := by
  unfold Projectile.hasReachedTarget
  infer_instance

/-- checkCollision (CombatSystem.ts lines 96-106): strict AABB overlap. -/
def checkCollision (p : Projectile) (t : Target) : Prop :=
  let pb := p.getEntityBounds
  let tb := t.getEntityBounds
  pb.x < tb.x + tb.width ∧ tb.x < pb.x + pb.width ∧
    pb.y < tb.y + tb.height ∧ tb.y < pb.y + pb.height

instance (p : Projectile) (t : Target) : Decidable (checkCollision p t) := by
  unfold checkCollision
  infer_instance

/-- isInRadius (CombatSystem.ts lines 111-116): squared-distance test. -/
def isInRadius (t : Target) (center : Position) (radius : ℝ) : Prop :=
  (t.x - center.x) * (t.x - center.x) + (t.y - center.y) * (t.y - center.y) ≤
    radius * radius

instance (t : Target) (c : Position) (r : ℝ) : Decidable (isInRadius t c r) := by
  unfold isInRadius
  infer_instance

/-- Combat events (src/types/combat.ts CombatEventType); projectile_hit
events carry the hit target id for direct hits and none for area
detonations, targetDamaged carries the final damage applied. -/
inductive CombatEvent : Type
  | projectileHit (targetId : Option String)
  | targetDamaged (targetId : String) (amount : ℤ)
  | targetKilled (targetId : String)
  deriving DecidableEq, Repr

/-- findTarget: look a live target up by id (the model of holding an object
reference from the registration map). -/
def findTarget (ts : List Target) (targetId : String) : Option Target :=
  ts.find? (fun t => t.id == targetId)

/-- setTarget: write back the mutated target object (by id). -/
def setTarget (ts : List Target) (t' : Target) : List Target :=
  ts.map (fun t => if t.id = t'.id then t' else t)

/-- getAliveTargets (CombatSystem.ts lines 54-56). -/
noncomputable def getAliveTargets (ts : List Target) : List Target :=
  ts.filter (fun t => decide t.isAlive)

/-- processHit (CombatSystem.ts lines 125-169): compute the final damage,
apply it, register the hit, emit projectile_hit and target_damaged, emit
target_killed if the target is dead afterwards (CombatSystem re-reads
target.isAlive, it does not pre-check it), and deactivate the projectile if
it cannot continue.  The target's external onDeath callback is outside the
model. -/
noncomputable def processHit (p : Projectile) (t : Target) :
    Projectile × Target × List CombatEvent :=
  let dmg := p.getDamageInfo
  let finalDamage := calculateDamage dmg.1 dmg.2 t.armor
  let t1 := t.takeDamage (finalDamage : ℝ)
  let r := p.registerHit t.id
  let evs :=
    [CombatEvent.projectileHit (some t.id), CombatEvent.targetDamaged t.id finalDamage]
      ++ (if ¬t1.isAlive then [CombatEvent.targetKilled t.id] else [])
  let p1 := if r.2 then r.1 else { r.1 with active := false }
  (p1, t1, evs)

/-- Direct-collision inner loop of update (CombatSystem.ts lines 80-89):
scan the alive-target snapshot in order; skip targets the projectile cannot
hit; on AABB overlap resolve the hit; stop scanning once the projectile is
deactivated.  Targets are read through findTarget so that mutations made
earlier in the same frame are visible (live references), while the snapshot
membership itself is fixed. -/
noncomputable def hitLoop (p : Projectile) (aliveIds : List String)
    (ts : List Target) : Projectile × List Target × List CombatEvent :=
  match aliveIds with
  | [] => (p, ts, [])
  | targetId :: rest =>
      if ¬p.canHitTarget targetId then hitLoop p rest ts
      else
        match findTarget ts targetId with
        | none => hitLoop p rest ts
        | some t =>
            if checkCollision p t then
              let r := processHit p t
              let ts1 := setTarget ts r.2.1
              if r.1.active then
                let rr := hitLoop r.1 rest ts1
                (rr.1, rr.2.1, r.2.2 ++ rr.2.2)
              else (r.1, ts1, r.2.2)
            else hitLoop p rest ts

/-- Per-target loop of processAreaDamage (CombatSystem.ts lines 185-223):
for each filtered target, distance-based linear falloff is applied to the
base amount, the reduced amount runs through the armor formula, damage is
applied, the hit registered, and target_damaged / target_killed emitted. -/
noncomputable def areaLoop (amount : ℝ) (dtype : DamageType) (center : Position)
    (radius : ℝ) : List String → Projectile → List Target →
      Projectile × List Target × List CombatEvent
  | [], p, ts => (p, ts, [])
  | targetId :: rest, p, ts =>
      match findTarget ts targetId with
      | none => areaLoop amount dtype center radius rest p ts
      | some t =>
          let distance := Real.sqrt ((t.x - center.x) ^ 2 + (t.y - center.y) ^ 2)
          let falloff := 1 - distance / radius * (1 / 2)
          let baseDamage := amount * falloff
          let finalDamage := calculateDamage baseDamage dtype t.armor
          let t1 := t.takeDamage (finalDamage : ℝ)
          let p1 := (p.registerHit targetId).1
          let evs := CombatEvent.targetDamaged targetId finalDamage ::
            (if ¬t1.isAlive then [CombatEvent.targetKilled targetId] else [])
          let rr := areaLoop amount dtype center radius rest p1 (setTarget ts t1)
          (rr.1, rr.2.1, evs ++ rr.2.2)

/-- processAreaDamage (CombatSystem.ts lines 174-234): filter the alive
snapshot by radius and canHitTarget, damage each with falloff, emit one
area projectile_hit, and always deactivate the projectile. -/
noncomputable def processAreaDamage (p : Projectile) (aliveIds : List String)
    (ts : List Target) : Projectile × List Target × List CombatEvent :=
  let dmg := p.getDamageInfo
  let center := p.getPosition
  let radius := p.areaRadius
  let hitIds := aliveIds.filter (fun targetId =>
    match findTarget ts targetId with
    | some t => decide (isInRadius t center radius) && p.canHitTarget targetId
    | none => false)
  let r := areaLoop dmg.1 dmg.2 center radius hitIds p ts
  ({ r.1 with active := false }, r.2.1,
   r.2.2 ++ [CombatEvent.projectileHit none])

/-- Per-projectile dispatch of update (CombatSystem.ts lines 70-89). -/
noncomputable def updateProj (p : Projectile) (aliveIds : List String)
    (ts : List Target) : Projectile × List Target × List CombatEvent :=
  if p.active = false then (p, ts, [])
  else if p.hasAreaDamage ∧ p.hasReachedTarget then processAreaDamage p aliveIds ts
  else hitLoop p aliveIds ts

/-- Projectile loop of update, threading the target states. -/
noncomputable def updateLoop (aliveIds : List String) :
    List Projectile → List Target → List Projectile × List Target × List CombatEvent
  | [], ts => ([], ts, [])
  | p :: rest, ts =>
      let r := updateProj p aliveIds ts
      let rr := updateLoop aliveIds rest r.2.1
      (r.1 :: rr.1, rr.2.1, r.2.2 ++ rr.2.2)

/-- combatUpdate: CombatSystem.update (CombatSystem.ts lines 66-91).  The
alive-target list is computed once, before the projectile loop. -/
noncomputable def combatUpdate (ps : List Projectile) (ts : List Target) :
    List Projectile × List Target × List CombatEvent :=
  let aliveIds := (getAliveTargets ts).map (fun t => t.id)
  updateLoop aliveIds ps ts

/-- isDamagedFor: recogniser for target_damaged events of a given target. -/
def isDamagedFor (targetId : String) : CombatEvent → Bool
  | CombatEvent.targetDamaged tid _ => tid == targetId
  | _ => false

/-- isKilledFor: recogniser for target_killed events of a given target. -/
def isKilledFor (targetId : String) : CombatEvent → Bool
  | CombatEvent.targetKilled tid => tid == targetId
  | _ => false

end

-- ===========================================================================
-- Concrete scenario states used by individual claims
-- ===========================================================================

/-- oneFastWave: a single wave of one FAST enemy with a 1000 ms cadence and
no start delay. -/
def oneFastWave : WaveDefinition := ⟨1, 0, [⟨EnemyType.FAST, 1, 1000⟩]⟩

/-- c2ReachedState: the WaveManager state reached by: construct on
oneFastWave, start, run one 10 s frame (countdown elapses, the wave begins),
run one 1 ms frame (the single enemy spawns; the machine moves to
WAITING_FOR_CLEAR), then receive one enemy_killed notification - all while
the external enemy manager reports one active enemy (the update calls pass
activeEnemies = 1, the lingering-enemy scenario of the design document).
In this state the queue is drained and killed + leaked = spawned = 1. -/
def c2ReachedState : WM :=
  (((((mkWaveManager [oneFastWave] SpawnMode.SEQUENTIAL (fun _ => 0)).start).1.update
    10 1).1.update (1 / 1000) 1).1).onEnemyKilled

/-- c4CountdownState: the WaveManager state directly after start: in
COUNTDOWN with duration 10000 ms, elapsed 0, no tick recorded. -/
def c4CountdownState : WM :=
  ((mkWaveManager [oneFastWave] SpawnMode.SEQUENTIAL (fun _ => 0)).start).1

/-- c2S1: the state after start - COUNTDOWN, 10 s to the first wave. -/
def c2S1 : WM := ⟨WaveManagerState.COUNTDOWN, -1, false, [], 0, 0, 10000, 0, 0,
  0, 0, 0, 0, 0, [oneFastWave], normalDifficulty, true, false, SpawnMode.SEQUENTIAL,
  fun _ => 0⟩

/-- c2S2: after a 10 s frame - the countdown elapsed and wave 1 began. -/
def c2S2 : WM := ⟨WaveManagerState.SPAWNING, 0, false, [⟨EnemyType.FAST, 0⟩], 0, 0, 10000,
  10000, 10, 0, 0, 0, 0, 0, [oneFastWave], normalDifficulty, true, false,
  SpawnMode.SEQUENTIAL, fun _ => 0⟩

/-- c2S2b: mid-frame state of the 1 ms frame, after spawning, before the
completion check. -/
def c2S2b : WM := ⟨WaveManagerState.SPAWNING, 0, false, [⟨EnemyType.FAST, 0⟩], 1, 1, 10000,
  10000, 10, 1, 0, 0, 0, 0, [oneFastWave], normalDifficulty, true, false,
  SpawnMode.SEQUENTIAL, fun _ => 0⟩

/-- c2S3: after the 1 ms frame - queue drained, WAITING_FOR_CLEAR. -/
def c2S3 : WM := ⟨WaveManagerState.WAITING_FOR_CLEAR, 0, false, [⟨EnemyType.FAST, 0⟩], 1, 1,
  10000, 10000, 10, 1, 0, 0, 0, 0, [oneFastWave], normalDifficulty, true, false,
  SpawnMode.SEQUENTIAL, fun _ => 0⟩

/-- c2S4: after the enemy_killed notification - killed = spawned = 1, but
the external manager still reports one active enemy. -/
def c2S4 : WM := ⟨WaveManagerState.WAITING_FOR_CLEAR, 0, false, [⟨EnemyType.FAST, 0⟩], 1, 1,
  10000, 10000, 10, 1, 1, 0, 0, 0, [oneFastWave], normalDifficulty, true, false,
  SpawnMode.SEQUENTIAL, fun _ => 0⟩

/-- c2S5: after skipCurrentWave - the machine reached COMPLETE. -/
def c2S5 : WM := ⟨WaveManagerState.COMPLETE, 0, false, [], 0, 1, 10000, 10000, 10,
  1, 1, 0, 1, 0, [oneFastWave], normalDifficulty, true, false,
  SpawnMode.SEQUENTIAL, fun _ => 0⟩

-- combat scenario for claim C10: one target hit by two identical bullets in
-- the same frame
noncomputable section

/-- c10Target: a 10 by 10 target at the origin with 5 health, no armor. -/
def c10Target : Target := ⟨"T", 5, 5, 0, 0, 0, 10, 10, true⟩

/-- c10Bullet: a 4 by 4 bullet at the origin, damage 10, pierce 1, colliding
with c10Target. -/
def c10Bullet (pid : String) : Projectile :=
  ⟨pid, 0, 0, 4, 4, ProjectileType.bullet, 10, 5, 1, 0, 0, [], 100, 100, true⟩

-- combat scenario for claim C8: an area projectile detonating at its target
-- point with one target at the edge of its 40-radius

/-- c8proj: an area projectile (pierce 0, areaRadius 40) sitting at its
target point, base damage 100. -/
def c8proj : Projectile :=
  ⟨"P", 0, 0, 4, 4, ProjectileType.bullet, 100, 5, 0, 40, 0, [], 0, 0, true⟩

/-- c8target: a full-health unarmoured target 40 units from the impact point,
exactly at the edge of the area radius. -/
def c8target : Target := ⟨"T", 10, 10, 0, 40, 0, 10, 10, true⟩

end

-- ===========================================================================
-- ===========================================================================
--                                THEOREMS
-- ===========================================================================
-- ===========================================================================

/-- C1: for every DamageInfo and every armor value, calculateDamage agrees
with the spec's damage formula (TRUE ignores armor; PHYSICAL reduces by
armor/(armor+100); MAGICAL uses effectiveArmor = armor * 0.7), the four
concrete examples hold (100/100 PHYSICAL gives 50, 100/100 MAGICAL gives
59, 100 TRUE against 999999 armor gives 100, 0.4 against 0 armor gives 1),
and the result is always at least 1. -/
theorem claim_C1_damage_formula :
    (∀ (amount armor : ℚ) (dtype : DamageType),
       calculateDamage amount dtype armor = specDamage amount dtype armor)
    ∧ calculateDamage (100 : ℚ) DamageType.PHYSICAL 100 = 50
    ∧ calculateDamage (100 : ℚ) DamageType.MAGICAL 100 = 59
    ∧ calculateDamage (100 : ℚ) DamageType.TRUE 999999 = 100
    ∧ calculateDamage ((2 : ℚ) / 5) DamageType.PHYSICAL 0 = 1
    ∧ calculateDamage ((2 : ℚ) / 5) DamageType.TRUE 0 = 1
    ∧ ∀ (amount armor : ℚ) (dtype : DamageType),
        1 ≤ calculateDamage amount dtype armor := by
  refine ⟨?_,
    by simp [calculateDamage, jsRound]; norm_num,
    by simp [calculateDamage, jsRound]; norm_num,
    by simp [calculateDamage, jsRound]; norm_num,
    by simp [calculateDamage, jsRound]; norm_num,
    by simp [calculateDamage, jsRound]; norm_num, ?_⟩
  · intro amount armor dtype
    cases dtype <;> simp [calculateDamage, specDamage]
  · intro amount armor dtype
    cases dtype <;> simp [calculateDamage]

/-- C9: a requested transition not in the table is warned about and leaves
the state unchanged, and contrapositively any actual state change follows a
table edge. -/
theorem claim_C9_transition_table :
    ∀ (s n : WaveManagerState),
      (n ∉ validTransitions s → transitionTo s n = s ∧ transitionWarns s n = true)
      ∧ (transitionTo s n ≠ s → n ∈ validTransitions s) := by
  intro s n
  constructor
  · intro h
    refine ⟨?_, by simp [transitionWarns, h]⟩
    simp [transitionTo, h]
  · intro h
    by_contra hmem
    exact h (by simp [transitionTo, hmem])

/-- C9 witness: the invalid request SPAWNING to COMPLETE is refused: the
state stays SPAWNING and the warning fires. -/
theorem claim_C9_witness :
    (WaveManagerState.COMPLETE ∉ validTransitions WaveManagerState.SPAWNING)
    ∧ transitionTo WaveManagerState.SPAWNING WaveManagerState.COMPLETE =
        WaveManagerState.SPAWNING
    ∧ transitionWarns WaveManagerState.SPAWNING WaveManagerState.COMPLETE = true
    ∧ (transitionTo WaveManagerState.WAITING_FOR_CLEAR WaveManagerState.COMPLETE ≠
        WaveManagerState.WAITING_FOR_CLEAR →
       WaveManagerState.COMPLETE ∈ validTransitions WaveManagerState.WAITING_FOR_CLEAR) := by
  have h1 := (claim_C9_transition_table WaveManagerState.SPAWNING
    WaveManagerState.COMPLETE).1 (by decide)
  have h2 := (claim_C9_transition_table WaveManagerState.WAITING_FOR_CLEAR
    WaveManagerState.COMPLETE).2
  exact ⟨by decide, h1.1, h1.2, h2⟩

/-- C3 counterexample: on the wave with groups FAST(count 1, delay 100) and
TANK(count 1, delay 50), the code's interleaved builder places the TANK
entry at time 100 - the shared clock advanced by the FAST group's delay -
whereas the claim's per-group clocks would place it at the TANK group's own
clock, time 0.  The builder therefore does not implement per-group clocks. -/
theorem claim_C3_counterexample :
    buildInterleavedQueue ⟨1, 0, [⟨EnemyType.FAST, 1, 100⟩, ⟨EnemyType.TANK, 1, 50⟩]⟩ =
      [⟨EnemyType.FAST, 0⟩, ⟨EnemyType.TANK, 100⟩]
    ∧ interleavedPerGroupClock [⟨EnemyType.FAST, 1, 100⟩, ⟨EnemyType.TANK, 1, 50⟩] =
      [⟨EnemyType.FAST, 0⟩, ⟨EnemyType.TANK, 0⟩]
    ∧ buildInterleavedQueue ⟨1, 0, [⟨EnemyType.FAST, 1, 100⟩, ⟨EnemyType.TANK, 1, 50⟩]⟩ ≠
      interleavedPerGroupClock [⟨EnemyType.FAST, 1, 100⟩, ⟨EnemyType.TANK, 1, 50⟩] := by
  have h1 : buildInterleavedQueue
      ⟨1, 0, [⟨EnemyType.FAST, 1, 100⟩, ⟨EnemyType.TANK, 1, 50⟩]⟩ =
      [⟨EnemyType.FAST, 0⟩, ⟨EnemyType.TANK, 100⟩] := by
    simp [buildInterleavedQueue, maxCount, initCounters, interLoopF]
  have h2 : interleavedPerGroupClock [⟨EnemyType.FAST, 1, 100⟩, ⟨EnemyType.TANK, 1, 50⟩] =
      [⟨EnemyType.FAST, 0⟩, ⟨EnemyType.TANK, 0⟩] := by
    norm_num [interleavedPerGroupClock, maxCount, List.range_succ]
  refine ⟨h1, h2, ?_⟩
  rw [h1, h2]
  intro h
  simp only [List.cons.injEq, SpawnQueueEntry.mk.injEq] at h
  exact absurd h.2.1.2 (by norm_num)

/-- C4 counterexample: a single update of 2.5 seconds during a fresh 10 s
countdown crosses two tick-interval boundaries (floor jumps from 0 to 2),
but exactly one countdown tick event fires, not the two the claim
demands. -/
theorem claim_C4_counterexample :
    countTicks (c4CountdownState.update (5 / 2) 1).2 = 1
    ∧ (⌊(5 / 2 : ℚ) * 1000 / countdownTickInterval⌋ = 2)
    ∧ (1 : ℕ) ≠ 2 := by
  refine ⟨?_, by norm_num [countdownTickInterval], by norm_num⟩
  norm_num [c4CountdownState, mkWaveManager, oneFastWave, WM.start, WM.startCountdown,
    WM.update, WM.isActive, WM.isCountingDown, WM.updateCountdown, countdownTickInterval,
    timeBetweenWaves, transitionTo, validTransitions, countTicks, isTickEvent]
  simp [countTicks, isTickEvent]

/-- Evaluation step for the C2 run: start. -/
theorem c2_step1 : (mkWaveManager [oneFastWave] SpawnMode.SEQUENTIAL (fun _ => 0)).start =
    (c2S1, [WaveEvent.countdownStarted 1 10000]) := by
  norm_num [mkWaveManager, WM.start, WM.isActive, WM.startCountdown, timeBetweenWaves,
    transitionTo, validTransitions, c2S1]

set_option maxRecDepth 8000 in
/-- Evaluation step for the C2 run: the 10 s frame elapses the countdown and
begins wave 1. -/
theorem c2_step2 : WM.update c2S1 10 1 = (c2S2, [WaveEvent.countdownTick 1 0,
    WaveEvent.waveStarted 1 1]) := by
  rw [WM.update]
  norm_num [WM.isActive, WM.isCountingDown, WM.updateCountdown, WM.beginWave,
    WM.getWaveDefinition, getScaledWaveDefinition, jsRound, normalDifficulty,
    buildSpawnQueue, buildSequentialQueue, buildSeqAux, seqGroupEntries, List.mergeSort,
    getWaveEnemyCount, countdownTickInterval, transitionTo, validTransitions, oneFastWave,
    c2S1, c2S2]
  all_goals simp

set_option maxRecDepth 8000 in
/-- Evaluation step for the C2 run: the spawning half of the 1 ms frame. -/
theorem c2_step3a : WM.updateWaveSpawning c2S2 1 = (c2S2b,
    [WaveEvent.enemySpawned EnemyType.FAST 1 1 1]) := by
  rw [WM.updateWaveSpawning]
  norm_num [c2S2]
  rw [WM.spawnLoop]
  norm_num [WM.spawnEnemy, WM.getWaveDefinition, getScaledWaveDefinition, jsRound,
    normalDifficulty, getWaveEnemyCount, oneFastWave]
  rw [WM.spawnLoop]
  norm_num [c2S2b, oneFastWave, normalDifficulty]

/-- Evaluation step for the C2 run: the completion check of the 1 ms frame
moves the machine to WAITING_FOR_CLEAR and stops there (killed + leaked = 0
is below spawned = 1). -/
theorem c2_step3b : WM.checkWaveCompletion c2S2b 1 = (c2S3, []) := by
  norm_num [WM.checkWaveCompletion, transitionTo, validTransitions, c2S2b, c2S3]

set_option maxRecDepth 8000 in
/-- Evaluation step for the C2 run: the whole 1 ms frame. -/
theorem c2_step3 : WM.update c2S2 (1 / 1000) 1 = (c2S3,
    [WaveEvent.enemySpawned EnemyType.FAST 1 1 1]) := by
  rw [WM.update]
  norm_num [WM.isActive, WM.isCountingDown,
    show c2S2.state = WaveManagerState.SPAWNING from rfl,
    show c2S2.isPaused = false from rfl,
    show c2S2.currentWaveIndex = 0 from rfl]
  simp only [c2_step3a, c2_step3b]
  all_goals simp

/-- Evaluation step for the C2 run: the enemy_killed notification. -/
theorem c2_step4 : WM.onEnemyKilled c2S3 = c2S4 := by
  norm_num [WM.onEnemyKilled, WM.isActive,
    show c2S3.state = WaveManagerState.WAITING_FOR_CLEAR from rfl,
    show c2S3.currentWaveIndex = 0 from rfl, c2S3, c2S4]
  all_goals simp

/-- Evaluation step for the C2 run: skipCurrentWave completes the wave and,
this being the last wave, drives the machine to COMPLETE. -/
theorem c2_step5 : WM.skipCurrentWave c2S4 = (c2S5,
    [WaveEvent.waveCompleted 1 1 0, WaveEvent.allWavesCompleted 1 1 0]) := by
  norm_num [WM.skipCurrentWave, WM.isActive, WM.completeCurrentWave, WM.completeAllWaves,
    WM.startCountdown, timeBetweenWaves, transitionTo, validTransitions, c2S4, c2S5,
    oneFastWave]
  all_goals simp

/-- Evaluation of the whole C2 run: c2ReachedState is the explicit c2S4. -/
theorem c2_reached : c2ReachedState = c2S4 := by
  rw [c2ReachedState, c2_step1]
  simp only [c2_step2, c2_step3, c2_step4]

/-- C2 counterexample: c2ReachedState is reached through the public API with
the external manager reporting one active enemy throughout; its queue is
drained and killed + leaked = spawned.  The claim says that, with
getActiveEnemyCount() still positive, the wave must not complete - yet
calling skipCurrentWave (which never consults the enemy manager) emits
wave_completed and drives the machine to COMPLETE. -/
theorem claim_C2_counterexample :
    c2ReachedState.spawnQueue.length ≤ c2ReachedState.spawnQueueIndex
    ∧ c2ReachedState.enemiesSpawnedThisWave ≤
        c2ReachedState.enemiesKilledThisWave + c2ReachedState.enemiesLeakedThisWave
    ∧ c2ReachedState.state = WaveManagerState.WAITING_FOR_CLEAR
    ∧ ((c2ReachedState.skipCurrentWave).2.filter isWaveCompletedEvent).length = 1
    ∧ (c2ReachedState.skipCurrentWave).1.state = WaveManagerState.COMPLETE := by
  rw [c2_reached, c2_step5]
  norm_num [c2S4, c2S5, isWaveCompletedEvent]

/-- C5 counterexample: in the 640 by 480 world with 64-pixel cells of the
repository's own test file, a box entirely beyond the world (x = y = 1000)
yields an empty cell-index window (the one-sided clamps cross), so after
insert the entity is registered but occupies zero cells - not at least
one. -/
theorem claim_C5_counterexample :
    (mkSpatialGrid 640 480 64).getCellIndices ⟨1000, 1000, 20, 20⟩ = []
    ∧ occupiedCells
        ((mkSpatialGrid 640 480 64).insert emptyGridState "beyond" ⟨1000, 1000, 20, 20⟩)
        "beyond" = []
    ∧ (mkSpatialGrid 640 480 64).cols = 10
    ∧ (mkSpatialGrid 640 480 64).rows = 8 := by
  have hr : (⌈(15 : ℚ) / 2⌉ : ℤ) = 8 := by rw [Int.ceil_eq_iff]; norm_num
  have hempty : (mkSpatialGrid 640 480 64).getCellIndices ⟨1000, 1000, 20, 20⟩ = [] := by
    norm_num [mkSpatialGrid, SpatialGrid.getCellIndices, intRange, hr]
  refine ⟨hempty, ?_, by norm_num [mkSpatialGrid], by norm_num [mkSpatialGrid, hr]⟩
  simp [SpatialGrid.insert, occupiedCells, hempty, lookupAssoc, setAssoc, emptyGridState]

open scoped List

theorem claim_C6_queue_sorted :
    ∀ (wave : WaveDefinition) (mode : SpawnMode) (rand : ℕ → ℕ),
      (buildSpawnQueue wave mode rand).Pairwise
        (fun a b => a.spawnTime ≤ b.spawnTime) := by
  intro wave mode rand
  unfold buildSpawnQueue
  refine List.Pairwise.imp ?_ (List.sorted_mergeSort ?_ ?_ _)
  · intro a b h
    exact of_decide_eq_true h
  · intro a b c hab hbc
    exact decide_eq_true (le_trans (of_decide_eq_true hab) (of_decide_eq_true hbc))
  · intro a b
    simp only [spawnTimeLE, Bool.or_eq_true, decide_eq_true_eq]
    exact le_total a.spawnTime b.spawnTime

theorem layTimes_map_etype : ∀ (t : ℚ) (l : List (EnemyType × ℚ)),
    (layTimes t l).map SpawnQueueEntry.etype = l.map Prod.fst
  | _, [] => rfl
  | t, (ty, d) :: rest => by
      simp [layTimes, layTimes_map_etype (t + d) rest]

theorem perm_cons_set {α : Type} : ∀ (l : List α) (k : ℕ) (a v : α),
    l[k]? = some v → (v :: l.set k a) ~ (a :: l)
  | [], k, a, v => by simp
  | x :: xs, 0, a, v => by
      intro h
      simp only [List.getElem?_cons_zero, Option.some.injEq] at h
      cases h
      simpa using List.Perm.swap a x xs
  | x :: xs, k + 1, a, v => by
      intro h
      simp only [List.getElem?_cons_succ] at h
      calc (v :: (x :: xs).set (k + 1) a) = v :: x :: xs.set k a := by simp
        _ ~ x :: v :: xs.set k a := List.Perm.swap x v _
        _ ~ x :: a :: xs := (perm_cons_set xs k a v h).cons x
        _ ~ a :: x :: xs := List.Perm.swap a x xs

theorem perm_set_set {α : Type} : ∀ (l : List α) (i j : ℕ) (a b : α),
    l[i]? = some a → l[j]? = some b → ((l.set i b).set j a) ~ l
  | [], _, _, _, _ => by simp
  | x :: xs, 0, 0, a, b => by
      intro hi hj
      simp only [List.getElem?_cons_zero, Option.some.injEq] at hi hj
      subst hi; subst hj
      simp
  | x :: xs, 0, j + 1, a, b => by
      intro hi hj
      simp only [List.getElem?_cons_zero, Option.some.injEq] at hi
      simp only [List.getElem?_cons_succ] at hj
      cases hi
      calc ((x :: xs).set 0 b).set (j + 1) x = b :: xs.set j x := by simp
        _ ~ x :: xs := perm_cons_set xs j x b hj
  | x :: xs, i + 1, 0, a, b => by
      intro hi hj
      simp only [List.getElem?_cons_succ] at hi
      simp only [List.getElem?_cons_zero, Option.some.injEq] at hj
      cases hj
      calc ((x :: xs).set (i + 1) x).set 0 a = a :: xs.set i x := by simp
        _ ~ x :: xs := perm_cons_set xs i x a hi
  | x :: xs, i + 1, j + 1, a, b => by
      intro hi hj
      simp only [List.getElem?_cons_succ] at hi hj
      calc ((x :: xs).set (i + 1) b).set (j + 1) a = x :: (xs.set i b).set j a := by simp
        _ ~ x :: xs := (perm_set_set xs i j a b hi hj).cons x

theorem swapL_perm {α : Type} (l : List α) (i j : ℕ) : (swapL l i j) ~ l := by
  unfold swapL
  match hi : l[i]?, hj : l[j]? with
  | some a, some b => exact perm_set_set l i j a b hi hj
  | some a, none => exact List.Perm.refl l
  | none, some b => exact List.Perm.refl l
  | none, none => exact List.Perm.refl l

theorem fyGo_perm {α : Type} (rand : ℕ → ℕ) : ∀ (i : ℕ) (l : List α),
    (fyGo rand i l) ~ l
  | 0, l => List.Perm.refl l
  | i + 1, l =>
      (fyGo_perm rand i (swapL l (i + 1) (min (rand (i + 1)) (i + 1)))).trans
        (swapL_perm l (i + 1) (min (rand (i + 1)) (i + 1)))

theorem seqGroupEntries_map_etype (ty : EnemyType) (d : ℚ) : ∀ (n : ℕ) (t : ℚ),
    (seqGroupEntries ty d n t).1.map SpawnQueueEntry.etype = List.replicate n ty
  | 0, _ => rfl
  | n + 1, t => by
      simp [seqGroupEntries, seqGroupEntries_map_etype ty d n (t + d), List.replicate]

theorem buildSeqAux_map_etype : ∀ (gs : List WaveEnemySpawn) (t : ℚ),
    (buildSeqAux gs t).map SpawnQueueEntry.etype =
      gs.flatMap (fun g => List.replicate g.count g.etype)
  | [], _ => rfl
  | g :: gs, t => by
      simp [buildSeqAux, buildSeqAux_map_etype gs, seqGroupEntries_map_etype]

theorem flatMap_replicate_map_fst : ∀ (gs : List WaveEnemySpawn),
    (gs.flatMap (fun g => List.replicate g.count (g.etype, g.spawnDelay))).map Prod.fst =
      gs.flatMap (fun g => List.replicate g.count g.etype)
  | [] => rfl
  | g :: gs => by
      simp only [List.flatMap_cons, List.map_append, List.map_replicate,
        flatMap_replicate_map_fst gs]

theorem claim_C7_multiset_equivalence :
    ∀ (wave : WaveDefinition) (rand : ℕ → ℕ),
      (((buildSpawnQueue wave SpawnMode.RANDOM rand).map SpawnQueueEntry.etype :
          List EnemyType) : Multiset EnemyType) =
      (((buildSpawnQueue wave SpawnMode.SEQUENTIAL rand).map SpawnQueueEntry.etype :
          List EnemyType) : Multiset EnemyType) := by
  intro wave rand
  refine Multiset.coe_eq_coe.mpr ?_
  show ((List.mergeSort (buildRandomQueue wave rand) spawnTimeLE).map
      SpawnQueueEntry.etype) ~
    ((List.mergeSort (buildSequentialQueue wave) spawnTimeLE).map SpawnQueueEntry.etype)
  calc (List.mergeSort (buildRandomQueue wave rand) spawnTimeLE).map SpawnQueueEntry.etype
      ~ (buildRandomQueue wave rand).map SpawnQueueEntry.etype :=
        (List.mergeSort_perm _ _).map _
    _ = (fisherYates (buildRandomPool wave.enemies) rand).map Prod.fst := by
        rw [buildRandomQueue, layTimes_map_etype]
    _ ~ (buildRandomPool wave.enemies).map Prod.fst := by
        unfold fisherYates
        exact (fyGo_perm rand _ _).map _
    _ = (buildSequentialQueue wave).map SpawnQueueEntry.etype := by
        rw [buildRandomPool, flatMap_replicate_map_fst, buildSequentialQueue,
          buildSeqAux_map_etype]
    _ ~ (List.mergeSort (buildSequentialQueue wave) spawnTimeLE).map SpawnQueueEntry.etype :=
        ((List.mergeSort_perm _ _).map _).symm

theorem mem_intRange {lo hi i : ℤ} : i ∈ intRange lo hi ↔ lo ≤ i ∧ i ≤ hi := by
  simp only [intRange, List.mem_map, List.mem_range]
  constructor
  · rintro ⟨k, hk, rfl⟩
    omega
  · rintro ⟨h1, h2⟩
    exact ⟨(i - lo).toNat, by omega, by omega⟩

theorem mem_getCellIndices {g : SpatialGrid} {b : Bounds ℚ} {i : ℤ}
    (h : i ∈ g.getCellIndices b) :
    ∃ row col : ℤ,
      max 0 ⌊b.y / g.cellSize⌋ ≤ row ∧ row ≤ min (g.rows - 1) ⌊(b.y + b.height) / g.cellSize⌋ ∧
      max 0 ⌊b.x / g.cellSize⌋ ≤ col ∧ col ≤ min (g.cols - 1) ⌊(b.x + b.width) / g.cellSize⌋ ∧
      i = row * g.cols + col := by
  simp only [SpatialGrid.getCellIndices, List.mem_flatMap, List.mem_map] at h
  obtain ⟨row, hrow, col, hcol, rfl⟩ := h
  rw [mem_intRange] at hrow hcol
  exact ⟨row, col, hrow.1, hrow.2, hcol.1, hcol.2, rfl⟩

theorem getCellIndices_in_range (g : SpatialGrid) (b : Bounds ℚ) (i : ℤ)
    (h : i ∈ g.getCellIndices b) : 0 ≤ i ∧ i < g.rows * g.cols := by
  obtain ⟨row, col, h1, h2, h3, h4, rfl⟩ := mem_getCellIndices h
  have hrow0 : 0 ≤ row := le_trans (le_max_left 0 _) h1
  have hcol0 : 0 ≤ col := le_trans (le_max_left 0 _) h3
  have hrow1 : row ≤ g.rows - 1 := le_trans h2 (min_le_left _ _)
  have hcol1 : col ≤ g.cols - 1 := le_trans h4 (min_le_left _ _)
  have hcols : 1 ≤ g.cols := by omega
  constructor
  · positivity
  · nlinarith [mul_le_mul_of_nonneg_right hrow1 (show (0 : ℤ) ≤ g.cols by omega)]

theorem mem_foldl_addToSet {α : Type} [DecidableEq α] :
    ∀ (l : List α) (base : List α) (x : α),
      x ∈ l.foldl addToSet base → x ∈ base ∨ x ∈ l
  | [], base, x => fun h => Or.inl h
  | a :: l, base, x => by
      intro h
      rcases mem_foldl_addToSet l (addToSet base a) x h with h1 | h1
      · unfold addToSet at h1
        split at h1
        · exact Or.inl h1
        · rcases List.mem_append.mp h1 with h2 | h2
          · exact Or.inl h2
          · simp only [List.mem_singleton] at h2
            exact Or.inr (h2 ▸ List.mem_cons_self a l)
      · exact Or.inr (List.mem_cons_of_mem a h1)

theorem foldl_addToSet_ne_nil {α : Type} [DecidableEq α] :
    ∀ (l : List α) (base : List α), base ≠ [] ∨ l ≠ [] → l.foldl addToSet base ≠ []
  | [], base => by
      intro h
      simp only [List.foldl_nil]
      tauto
  | a :: l, base => by
      intro _
      simp only [List.foldl_cons]
      refine foldl_addToSet_ne_nil l (addToSet base a) (Or.inl ?_)
      unfold addToSet
      split
      · intro hb
        subst hb
        simp_all
      · simp

theorem lookupAssoc_setAssoc_self {κ β : Type} [DecidableEq κ] :
    ∀ (m : List (κ × β)) (k : κ) (v : β), lookupAssoc (setAssoc m k v) k = some v
  | [], k, v => by simp [setAssoc, lookupAssoc]
  | (k0, v0) :: m, k, v => by
      by_cases hk : k = k0
      · simp [setAssoc, lookupAssoc, hk]
      · simp only [setAssoc, if_neg hk, lookupAssoc, if_neg hk]
        exact lookupAssoc_setAssoc_self m k v

theorem occupiedCells_insert (g : SpatialGrid) (st : GridState) (e : String)
    (b : Bounds ℚ) :
    occupiedCells (g.insert st e b) e =
      (g.getCellIndices b).foldl addToSet ((lookupAssoc st.entityCells e).getD []) := by
  simp [occupiedCells, SpatialGrid.insert, lookupAssoc_setAssoc_self]

/-- C5 amended: insert clamps the cell window one-sidedly into the grid, so
every occupied cell index is a valid index in [0, rows * cols); and a box
whose floored span meets the grid's column range and row range (the
conditions below) occupies at least one cell after insert.  A box entirely
beyond the grid on some axis, however, yields an empty window and occupies
no cells (claim_C5_counterexample), so the unconditional at-least-one-cell
half of the claim is false. -/
theorem claim_C5_amended :
    (∀ (g : SpatialGrid) (b : Bounds ℚ) (i : ℤ),
       i ∈ g.getCellIndices b → 0 ≤ i ∧ i < g.rows * g.cols)
    ∧ (∀ (g : SpatialGrid) (b : Bounds ℚ) (e : String) (i : ℤ),
       i ∈ occupiedCells (g.insert emptyGridState e b) e →
         0 ≤ i ∧ i < g.rows * g.cols)
    ∧ (∀ (g : SpatialGrid) (st : GridState) (b : Bounds ℚ) (e : String),
       0 < g.cellSize → 0 ≤ b.width → 0 ≤ b.height →
       1 ≤ g.cols → 1 ≤ g.rows →
       ⌊b.x / g.cellSize⌋ ≤ g.cols - 1 → 0 ≤ ⌊(b.x + b.width) / g.cellSize⌋ →
       ⌊b.y / g.cellSize⌋ ≤ g.rows - 1 → 0 ≤ ⌊(b.y + b.height) / g.cellSize⌋ →
       occupiedCells (g.insert st e b) e ≠ []) := by
  refine ⟨getCellIndices_in_range, ?_, ?_⟩
  · intro g b e i h
    rw [occupiedCells_insert] at h
    rcases mem_foldl_addToSet _ _ _ h with h1 | h1
    · simp [emptyGridState, lookupAssoc] at h1
    · exact getCellIndices_in_range g b i h1
  · intro g st b e hcell hw hh hcols hrows hx1 hx2 hy1 hy2
    rw [occupiedCells_insert]
    refine foldl_addToSet_ne_nil _ _ (Or.inr ?_)
    have hfx : ⌊b.x / g.cellSize⌋ ≤ ⌊(b.x + b.width) / g.cellSize⌋ := by
      refine Int.floor_le_floor ?_
      gcongr
      linarith
    have hfy : ⌊b.y / g.cellSize⌋ ≤ ⌊(b.y + b.height) / g.cellSize⌋ := by
      refine Int.floor_le_floor ?_
      gcongr
      linarith
    have hmem : (max 0 ⌊b.y / g.cellSize⌋) * g.cols + max 0 ⌊b.x / g.cellSize⌋ ∈
        g.getCellIndices b := by
      simp only [SpatialGrid.getCellIndices, List.mem_flatMap, List.mem_map]
      refine ⟨max 0 ⌊b.y / g.cellSize⌋, mem_intRange.mpr ⟨le_refl _, by omega⟩,
        max 0 ⌊b.x / g.cellSize⌋, mem_intRange.mpr ⟨le_refl _, by omega⟩, rfl⟩
    intro hnil
    rw [hnil] at hmem
    exact List.not_mem_nil _ hmem

theorem claim_C5_witness :
    ((0 : ℚ) < (mkSpatialGrid 640 480 64).cellSize)
    ∧ (⌊(-50 : ℚ) / (mkSpatialGrid 640 480 64).cellSize⌋ ≤ (mkSpatialGrid 640 480 64).cols - 1)
    ∧ (0 ≤ ⌊((-50 : ℚ) + 60) / (mkSpatialGrid 640 480 64).cellSize⌋)
    ∧ occupiedCells ((mkSpatialGrid 640 480 64).insert emptyGridState "edge"
        ⟨-50, -50, 60, 60⟩) "edge" ≠ []
    ∧ (0 ∈ (mkSpatialGrid 640 480 64).getCellIndices ⟨-50, -50, 60, 60⟩ →
        (0 : ℤ) ≤ 0 ∧ (0 : ℤ) < (mkSpatialGrid 640 480 64).rows * (mkSpatialGrid 640 480 64).cols) := by
  have hr : (⌈(15 : ℚ) / 2⌉ : ℤ) = 8 := by rw [Int.ceil_eq_iff]; norm_num
  refine ⟨by norm_num [mkSpatialGrid], by norm_num [mkSpatialGrid],
    by norm_num [mkSpatialGrid], ?_, ?_⟩
  · exact claim_C5_amended.2.2 (mkSpatialGrid 640 480 64) emptyGridState
      ⟨-50, -50, 60, 60⟩ "edge"
      (by norm_num [mkSpatialGrid]) (by norm_num) (by norm_num)
      (by norm_num [mkSpatialGrid])
      (by norm_num [mkSpatialGrid, hr])
      (by norm_num [mkSpatialGrid]) (by norm_num [mkSpatialGrid])
      (by norm_num [mkSpatialGrid, hr])
      (by norm_num [mkSpatialGrid])
  · exact claim_C5_amended.1 (mkSpatialGrid 640 480 64) ⟨-50, -50, 60, 60⟩ 0

/-- C2 amended: the frame-driven completion check respects all three
conditions - while the external manager reports active enemies it emits
nothing and at most performs the SPAWNING to WAITING_FOR_CLEAR bookkeeping
transition; and whenever it emits wave_completed, the queue was drained,
killed + leaked had reached spawned, and the active count was zero.  (The
debugging entry point skipCurrentWave bypasses all three conditions, see
claim_C2_counterexample.) -/
theorem claim_C2_amended :
    ∀ (w : WM) (active : ℕ),
      (0 < active →
        (w.checkWaveCompletion active).2 = [] ∧
        ((w.checkWaveCompletion active).1.state = w.state ∨
          (w.state = WaveManagerState.SPAWNING ∧
            (w.checkWaveCompletion active).1.state = WaveManagerState.WAITING_FOR_CLEAR)))
      ∧ ((w.checkWaveCompletion active).2.any isWaveCompletedEvent = true →
          w.spawnQueue.length ≤ w.spawnQueueIndex ∧
          w.enemiesSpawnedThisWave ≤ w.enemiesKilledThisWave + w.enemiesLeakedThisWave ∧
          active = 0) := by
  intro w active
  unfold WM.checkWaveCompletion
  by_cases hq : w.spawnQueueIndex < w.spawnQueue.length
  · simp only [if_pos hq]
    exact ⟨fun _ => by simp, fun h => by simp at h⟩
  · simp only [if_neg hq]
    have hqle : w.spawnQueue.length ≤ w.spawnQueueIndex := by omega
    by_cases hs : w.state = WaveManagerState.SPAWNING
    · simp only [if_pos hs]
      have ht : transitionTo w.state WaveManagerState.WAITING_FOR_CLEAR =
          WaveManagerState.WAITING_FOR_CLEAR := by
        rw [hs]
        decide
      by_cases hg : w.enemiesSpawnedThisWave ≤
          w.enemiesKilledThisWave + w.enemiesLeakedThisWave ∧ active = 0
      · simp only [if_pos hg]
        constructor
        · intro ha
          omega
        · intro _
          exact ⟨hqle, hg.1, hg.2⟩
      · simp only [if_neg hg]
        constructor
        · intro _
          refine ⟨by simp, Or.inr ⟨hs, by simp [ht]⟩⟩
        · intro h
          simp at h
    · simp only [if_neg hs]
      by_cases hg : w.enemiesSpawnedThisWave ≤
          w.enemiesKilledThisWave + w.enemiesLeakedThisWave ∧ active = 0
      · simp only [if_pos hg]
        constructor
        · intro ha
          omega
        · intro _
          exact ⟨hqle, hg.1, hg.2⟩
      · simp only [if_neg hg]
        exact ⟨fun _ => by simp, fun h => by simp at h⟩

/-- C2 witness: the reachable drained SPAWNING state c2S2b with one active
enemy: the completion check emits nothing and only moves to
WAITING_FOR_CLEAR. -/
theorem claim_C2_witness :
    0 < 1
    ∧ (WM.checkWaveCompletion c2S2b 1).2 = []
    ∧ ((WM.checkWaveCompletion c2S2b 1).1.state = c2S2b.state ∨
        (c2S2b.state = WaveManagerState.SPAWNING ∧
          (WM.checkWaveCompletion c2S2b 1).1.state = WaveManagerState.WAITING_FOR_CLEAR)) := by
  have h := (claim_C2_amended c2S2b 1).1 (by norm_num)
  exact ⟨by norm_num, h.1, h.2⟩

theorem countTicks_append (a b : List WaveEvent) :
    countTicks (a ++ b) = countTicks a + countTicks b := by
  simp [countTicks, List.filter_append]

theorem beginWave_no_ticks (w : WM) : countTicks (w.beginWave).2 = 0 := by
  unfold WM.beginWave WM.completeAllWaves
  dsimp only
  split
  · simp [countTicks, isTickEvent]
  · simp [countTicks, isTickEvent]

/-- Single countdown frame, away from the countdown's end: the elapsed clock
advances by deltaTime * 1000, the recorded tick jumps to the new floor, and
exactly one tick event is emitted iff the floor strictly increased. -/
theorem updateCountdown_step (w : WM) (d : ℚ) (active : ℕ)
    (hs : w.state = WaveManagerState.COUNTDOWN) (hp : w.isPaused = false)
    (hd : 0 ≤ d)
    (hlast : w.lastCountdownTick = ⌊w.countdownElapsed / countdownTickInterval⌋)
    (hlt : w.countdownElapsed + d * 1000 < w.countdownTime) :
    w.update d active =
      ({ w with
          countdownElapsed := w.countdownElapsed + d * 1000
          lastCountdownTick := ⌊(w.countdownElapsed + d * 1000) / countdownTickInterval⌋ },
       if ⌊w.countdownElapsed / countdownTickInterval⌋ <
           ⌊(w.countdownElapsed + d * 1000) / countdownTickInterval⌋ then
         [WaveEvent.countdownTick (w.currentWaveIndex + 2)
            (max 0 (w.countdownTime - (w.countdownElapsed + d * 1000)))]
       else []) := by
  have hmono : ⌊w.countdownElapsed / countdownTickInterval⌋ ≤
      ⌊(w.countdownElapsed + d * 1000) / countdownTickInterval⌋ := by
    refine Int.floor_le_floor ?_
    gcongr
    · norm_num [countdownTickInterval]
    · nlinarith
  unfold WM.update WM.updateCountdown WM.isActive WM.isCountingDown
  rw [hs, hp]
  rw [if_neg (by decide), if_pos (by decide)]
  dsimp only
  rw [hlast]
  by_cases hc : ⌊w.countdownElapsed / countdownTickInterval⌋ <
      ⌊(w.countdownElapsed + d * 1000) / countdownTickInterval⌋
  · rw [if_pos hc, if_pos hc]
    dsimp only
    rw [if_neg (not_le.mpr hlt)]
  · rw [if_neg hc, if_neg hc]
    dsimp only
    rw [if_neg (not_le.mpr hlt)]
    have heq : ⌊(w.countdownElapsed + d * 1000) / countdownTickInterval⌋ =
        ⌊w.countdownElapsed / countdownTickInterval⌋ := le_antisymm (by omega) hmono
    rw [heq, ← hlast]

theorem countdown_run_ticks :
    ∀ (ds : List ℚ) (w : WM) (active : ℕ),
      w.state = WaveManagerState.COUNTDOWN →
      w.isPaused = false →
      w.lastCountdownTick = ⌊w.countdownElapsed / countdownTickInterval⌋ →
      (∀ d ∈ ds, 0 ≤ d) →
      w.countdownElapsed + (ds.map (fun d => d * 1000)).sum < w.countdownTime →
      countTicks (runUpdates w active ds).2 =
        crossings w.countdownElapsed (ds.map (fun d => d * 1000))
  | [], w, active, _, _, _, _, _ => by
      simp [runUpdates, countTicks, crossings]
  | d :: ds, w, active, hs, hp, hlast, hnn, hsum => by
      have hd : 0 ≤ d := hnn d (List.mem_cons_self d ds)
      have hrest : ∀ x ∈ ds, 0 ≤ x := fun x hx => hnn x (List.mem_cons_of_mem d hx)
      have hsum0 : 0 ≤ (ds.map (fun d => d * 1000)).sum := by
        refine List.sum_nonneg ?_
        intro x hx
        obtain ⟨y, hy, rfl⟩ := List.mem_map.mp hx
        have := hrest y hy
        linarith
      have hlt : w.countdownElapsed + d * 1000 < w.countdownTime := by
        simp only [List.map_cons, List.sum_cons] at hsum
        linarith
      have hstep := updateCountdown_step w d active hs hp hd hlast hlt
      simp only [runUpdates, hstep, countTicks_append, List.map_cons, List.sum_cons]
      have hih := countdown_run_ticks ds
        { w with
            countdownElapsed := w.countdownElapsed + d * 1000
            lastCountdownTick := ⌊(w.countdownElapsed + d * 1000) / countdownTickInterval⌋ }
        active hs hp rfl hrest
        (by simp only [List.map_cons, List.sum_cons] at hsum; simp; linarith)
      rw [hih]
      rw [crossings]
      by_cases hc : ⌊w.countdownElapsed / countdownTickInterval⌋ <
          ⌊(w.countdownElapsed + d * 1000) / countdownTickInterval⌋
      · rw [if_pos hc, if_pos hc]
        simp [countTicks, isTickEvent]
      · rw [if_neg hc, if_neg hc]
        simp [countTicks]

theorem update_at_most_one_tick (w : WM) (d : ℚ) (active : ℕ)
    (hs : w.state = WaveManagerState.COUNTDOWN) :
    countTicks (w.update d active).2 ≤ 1 := by
  unfold WM.update WM.updateCountdown WM.isActive WM.isCountingDown
  rw [hs]
  by_cases hp : w.isPaused
  · simp [hp, countTicks]
  · simp only [hp, decide_eq_true_eq]
    rw [if_neg (by simp), if_pos (by simp)]
    by_cases hc : ({ w with countdownElapsed := w.countdownElapsed + d * 1000 } : WM).lastCountdownTick <
        ⌊({ w with countdownElapsed := w.countdownElapsed + d * 1000 } : WM).countdownElapsed /
          countdownTickInterval⌋
    · rw [if_pos hc]
      simp only
      split
      · rw [countTicks_append, beginWave_no_ticks]
        simp [countTicks, isTickEvent]
      · simp [countTicks, isTickEvent]
    · rw [if_neg hc]
      simp only
      split
      · rw [countTicks_append, beginWave_no_ticks]
        simp [countTicks, isTickEvent]
      · simp [countTicks, isTickEvent]

/-- C4 amended: during COUNTDOWN, each update call emits at most one
countdown tick event, and over any frame sequence that stays inside the
countdown the number of tick events equals the number of calls at which
floor(elapsed / tickInterval) strictly increased - so a single large
deltaTime that crosses k > 1 boundaries fires one tick event, not k
(intermediate ticks are skipped; lastCountdownTick jumps to the new
floor). -/
theorem claim_C4_amended :
    (∀ (ds : List ℚ) (w : WM) (active : ℕ),
      w.state = WaveManagerState.COUNTDOWN →
      w.isPaused = false →
      w.countdownElapsed = 0 →
      w.lastCountdownTick = 0 →
      (∀ d ∈ ds, 0 ≤ d) →
      (ds.map (fun d => d * 1000)).sum < w.countdownTime →
      countTicks (runUpdates w active ds).2 = crossings 0 (ds.map (fun d => d * 1000)))
    ∧ ∀ (w : WM) (d : ℚ) (active : ℕ),
        w.state = WaveManagerState.COUNTDOWN →
        countTicks (w.update d active).2 ≤ 1 := by
  constructor
  · intro ds w active hs hp he hl hnn hsum
    have := countdown_run_ticks ds w active hs hp (by rw [hl, he]; simp) hnn
      (by rw [he]; linarith)
    rw [this, he]
  · exact update_at_most_one_tick

/-- C4 witness: from the started countdown state, frames of 0.5 s and 2 s
give one floor crossing and hence one tick event, and any single frame
emits at most one tick. -/
theorem claim_C4_witness :
    c2S1.state = WaveManagerState.COUNTDOWN
    ∧ c2S1.isPaused = false
    ∧ c2S1.countdownElapsed = 0
    ∧ c2S1.lastCountdownTick = 0
    ∧ (∀ d ∈ [(1 : ℚ) / 2, 2], 0 ≤ d)
    ∧ (([(1 : ℚ) / 2, 2].map (fun d => d * 1000)).sum < c2S1.countdownTime)
    ∧ countTicks (runUpdates c2S1 1 [(1 : ℚ) / 2, 2]).2 =
        crossings 0 ([(1 : ℚ) / 2, 2].map (fun d => d * 1000))
    ∧ countTicks (c2S1.update (5 / 2) 1).2 ≤ 1 := by
  refine ⟨rfl, rfl, rfl, rfl, by norm_num, by norm_num [c2S1], ?_, ?_⟩
  · exact claim_C4_amended.1 [(1 : ℚ) / 2, 2] c2S1 1 rfl rfl rfl rfl
      (by norm_num) (by norm_num [c2S1])
  · exact claim_C4_amended.2 c2S1 (5 / 2) 1 rfl

-- ===========================================================================
-- Claim C3 (amended): the interleaved loop realises a shared-clock
-- round-robin schedule
-- ===========================================================================

theorem counters_length : ∀ (gs : List WaveEnemySpawn) (r idx : ℕ),
    (counters gs r idx).length = gs.length
  | [], _, _ => rfl
  | _ :: gs, r, 0 => by simp [counters, counters_length gs r 0]
  | _ :: gs, r, idx + 1 => by simp [counters, counters_length gs r idx]

theorem counters_init : ∀ (gs : List WaveEnemySpawn), counters gs 0 0 = initCounters gs
  | [] => rfl
  | g :: gs => by simp [counters, initCounters, counters_init gs]

theorem counters_getD : ∀ (gs : List WaveEnemySpawn) (r idx : ℕ), idx < gs.length →
    (counters gs r idx).getD idx default =
      ⟨(gs.getD idx default).etype, (gs.getD idx default).count - r,
        (gs.getD idx default).spawnDelay⟩
  | _ :: _, _, 0, _ => rfl
  | _ :: gs, r, idx + 1, h => by
      simpa [counters] using counters_getD gs r idx (by simp at h; omega)

theorem counters_set : ∀ (gs : List WaveEnemySpawn) (r idx : ℕ), idx < gs.length →
    (counters gs r idx).set idx
      ⟨(gs.getD idx default).etype, (gs.getD idx default).count - r - 1,
        (gs.getD idx default).spawnDelay⟩ = counters gs r (idx + 1)
  | _ :: _, _, 0, _ => by simp [counters]
  | _ :: gs, r, idx + 1, h => by
      simpa [counters] using counters_set gs r idx (by simp at h; omega)

theorem counters_skip : ∀ (gs : List WaveEnemySpawn) (r idx : ℕ), idx < gs.length →
    (gs.getD idx default).count ≤ r → counters gs r idx = counters gs r (idx + 1)
  | g :: _, r, 0, _, hle => by
      have h0 : g.count - r = 0 := by simp at hle; omega
      simp [counters, h0]
  | _ :: gs, r, idx + 1, h, hle => by
      simpa [counters] using
        counters_skip gs r idx (by simp at h; omega) (by simpa using hle)

theorem counters_roll : ∀ (gs : List WaveEnemySpawn) (r : ℕ),
    counters gs r gs.length = counters gs (r + 1) 0
  | [], _ => rfl
  | g :: gs, r => by simp [counters, counters_roll gs r, Nat.sub_sub]

theorem maxCount_cons (g : WaveEnemySpawn) (gs : List WaveEnemySpawn) :
    maxCount (g :: gs) = max g.count (maxCount gs) := rfl

theorem le_maxCount : ∀ (gs : List WaveEnemySpawn) (g : WaveEnemySpawn), g ∈ gs →
    g.count ≤ maxCount gs
  | [], _, h => by simp at h
  | g' :: gs, g, h => by
      rw [maxCount_cons]
      rcases List.mem_cons.mp h with rfl | h
      · exact Nat.le_max_left _ _
      · exact le_trans (le_maxCount gs g h) (Nat.le_max_right _ _)

theorem counters_any_lt : ∀ (gs : List WaveEnemySpawn) (r idx : ℕ),
    (counters gs r idx).any (fun c => decide (0 < c.remaining)) = true →
    r < maxCount gs
  | [], _, _, h => by simp [counters] at h
  | g :: gs, r, 0, h => by
      rw [maxCount_cons]
      simp only [counters, List.any_cons, Bool.or_eq_true, decide_eq_true_eq] at h
      rcases h with h | h
      · have := Nat.le_max_left g.count (maxCount gs)
        omega
      · exact lt_of_lt_of_le (counters_any_lt gs r 0 h) (Nat.le_max_right _ _)
  | g :: gs, r, idx + 1, h => by
      rw [maxCount_cons]
      simp only [counters, List.any_cons, Bool.or_eq_true, decide_eq_true_eq] at h
      rcases h with h | h
      · have := Nat.le_max_left g.count (maxCount gs)
        omega
      · exact lt_of_lt_of_le (counters_any_lt gs r idx h) (Nat.le_max_right _ _)

theorem counters_any_false_counts : ∀ (gs : List WaveEnemySpawn) (r idx : ℕ),
    (counters gs r idx).any (fun c => decide (0 < c.remaining)) = false →
    ∀ g ∈ gs, g.count ≤ r + 1
  | [], _, _, _, g, hg => by simp at hg
  | g' :: gs, r, 0, h, g, hg => by
      simp only [counters, List.any_cons, Bool.or_eq_false_iff,
        decide_eq_false_iff_not, Nat.not_lt] at h
      rcases List.mem_cons.mp hg with rfl | hg'
      · omega
      · exact counters_any_false_counts gs r 0 h.2 g hg'
  | g' :: gs, r, idx + 1, h, g, hg => by
      simp only [counters, List.any_cons, Bool.or_eq_false_iff,
        decide_eq_false_iff_not, Nat.not_lt] at h
      rcases List.mem_cons.mp hg with rfl | hg'
      · omega
      · exact counters_any_false_counts gs r idx h.2 g hg'

theorem counters_any_false_drop : ∀ (gs : List WaveEnemySpawn) (r idx : ℕ),
    (counters gs r idx).any (fun c => decide (0 < c.remaining)) = false →
    ∀ g ∈ gs.drop idx, g.count ≤ r
  | [], _, _, _, g, hg => by simp at hg
  | g' :: gs, r, 0, h, g, hg => by
      simp only [counters, List.any_cons, Bool.or_eq_false_iff,
        decide_eq_false_iff_not, Nat.not_lt] at h
      rcases List.mem_cons.mp (by simpa using hg) with rfl | hg'
      · omega
      · exact counters_any_false_drop gs r 0 h.2 g (by simpa using hg')
  | g' :: gs, r, idx + 1, h, g, hg => by
      simp only [counters, List.any_cons, Bool.or_eq_false_iff,
        decide_eq_false_iff_not, Nat.not_lt] at h
      exact counters_any_false_drop gs r idx h.2 g (by simpa using hg)

theorem roundEntries_nil (gs : List WaveEnemySpawn) (r : ℕ)
    (h : ∀ g ∈ gs, g.count ≤ r) : roundEntries gs r = [] := by
  have hf : gs.filter (fun g => decide (r < g.count)) = [] := by
    rw [List.filter_eq_nil_iff]
    intro g hg
    simpa using Nat.not_lt.mpr (h g hg)
  simp [roundEntries, hf]

theorem roundEntries_cons_pos (g : WaveEnemySpawn) (gs : List WaveEnemySpawn) (r : ℕ)
    (h : r < g.count) :
    roundEntries (g :: gs) r = (g.etype, g.spawnDelay) :: roundEntries gs r := by
  simp [roundEntries, List.filter_cons, h]

theorem roundEntries_cons_neg (g : WaveEnemySpawn) (gs : List WaveEnemySpawn) (r : ℕ)
    (h : ¬ r < g.count) : roundEntries (g :: gs) r = roundEntries gs r := by
  simp [roundEntries, List.filter_cons, h]

theorem roundsFromAux_eq_nil : ∀ (gs : List WaveEnemySpawn) (fuel r : ℕ),
    (∀ g ∈ gs, g.count ≤ r) → roundsFromAux gs fuel r = []
  | _, 0, _, _ => rfl
  | gs, fuel + 1, r, h => by
      simp [roundsFromAux, roundEntries_nil gs r h,
        roundsFromAux_eq_nil gs fuel (r + 1) (fun g hg => le_trans (h g hg) (by omega))]

theorem layTimes_cons (t : ℚ) (ty : EnemyType) (d : ℚ) (rest : List (EnemyType × ℚ)) :
    layTimes t ((ty, d) :: rest) = ⟨ty, t⟩ :: layTimes (t + d) rest := rfl

theorem roundsFromAux_step (gs : List WaveEnemySpawn) (r : ℕ) :
    roundsFromAux gs (maxCount gs - r) r =
      roundEntries gs r ++ roundsFromAux gs (maxCount gs - (r + 1)) (r + 1) := by
  rcases Nat.lt_or_ge r (maxCount gs) with hr | hr
  · have h1 : maxCount gs - r = (maxCount gs - (r + 1)) + 1 := by omega
    rw [h1]
    rfl
  · have h0 : maxCount gs - r = 0 := by omega
    have h1 : maxCount gs - (r + 1) = 0 := by omega
    rw [h0, h1, roundEntries_nil gs r (fun g hg => le_trans (le_maxCount gs g hg) hr)]
    rfl

set_option maxHeartbeats 1000000 in
theorem interLoopF_spec : ∀ (fuel : ℕ) (gs : List WaveEnemySpawn) (r idx : ℕ) (time : ℚ),
    idx < gs.length →
    (maxCount gs - r) * gs.length + (gs.length - idx) + 1 ≤ fuel →
    interLoopF fuel (counters gs r idx) time idx =
      layTimes time (roundEntries (gs.drop idx) r ++
        roundsFromAux gs (maxCount gs - (r + 1)) (r + 1))
  | 0, gs, r, idx, time, hidx, hfuel => absurd hfuel (by omega)
  | fuel + 1, gs, r, idx, time, hidx, hfuel => by
      simp only [interLoopF]
      by_cases hany : (counters gs r idx).any (fun c => decide (0 < c.remaining)) = true
      · rw [if_pos hany]
        have hlen := counters_length gs r idx
        have hmod : idx % (counters gs r idx).length = idx := by
          rw [hlen]; exact Nat.mod_eq_of_lt hidx
        rw [hmod, counters_getD gs r idx hidx]
        dsimp only
        have hdrop : gs.drop idx = gs.getD idx default :: gs.drop (idx + 1) := by
          rw [List.drop_eq_getElem_cons hidx]
          simp [List.getD_eq_getElem?_getD, List.getElem?_eq_getElem hidx]
        have hmem : gs.getD idx default ∈ gs := by
          simp [List.getD_eq_getElem?_getD, List.getElem?_eq_getElem hidx]
        by_cases hrem : 0 < (gs.getD idx default).count - r
        · rw [if_pos hrem, counters_set gs r idx hidx, hlen, hdrop,
            roundEntries_cons_pos _ _ _ (by omega), List.cons_append, layTimes_cons]
          congr 1
          rcases Nat.lt_or_ge (idx + 1) gs.length with hlt | hge
          · rw [Nat.mod_eq_of_lt hlt]
            exact interLoopF_spec fuel gs r (idx + 1) _ hlt (by omega)
          · have heq : idx + 1 = gs.length := by omega
            rw [heq, Nat.mod_self, counters_roll gs r, List.drop_length]
            rw [show roundEntries ([] : List WaveEnemySpawn) r = [] from rfl,
              List.nil_append]
            have hrB : r < maxCount gs :=
              lt_of_lt_of_le (by omega) (le_maxCount gs _ hmem)
            have hfe : (maxCount gs - (r + 1)) * gs.length + (gs.length - 0) + 1 ≤ fuel := by
              have h1 : maxCount gs - r = (maxCount gs - (r + 1)) + 1 := by omega
              rw [h1, Nat.add_mul, Nat.one_mul] at hfuel
              omega
            rw [interLoopF_spec fuel gs (r + 1) 0 _ (by omega) hfe, List.drop_zero,
              roundsFromAux_step gs (r + 1)]
        · rw [if_neg hrem, hlen, counters_skip gs r idx hidx (by omega), hdrop,
            roundEntries_cons_neg _ _ _ (by omega)]
          rcases Nat.lt_or_ge (idx + 1) gs.length with hlt | hge
          · rw [Nat.mod_eq_of_lt hlt]
            exact interLoopF_spec fuel gs r (idx + 1) time hlt (by omega)
          · have heq : idx + 1 = gs.length := by omega
            rw [heq, Nat.mod_self, counters_roll gs r, List.drop_length]
            rw [show roundEntries ([] : List WaveEnemySpawn) r = [] from rfl,
              List.nil_append]
            have hrB : r < maxCount gs := counters_any_lt gs r idx hany
            have hfe : (maxCount gs - (r + 1)) * gs.length + (gs.length - 0) + 1 ≤ fuel := by
              have h1 : maxCount gs - r = (maxCount gs - (r + 1)) + 1 := by omega
              rw [h1, Nat.add_mul, Nat.one_mul] at hfuel
              omega
            rw [interLoopF_spec fuel gs (r + 1) 0 time (by omega) hfe, List.drop_zero,
              roundsFromAux_step gs (r + 1)]
      · rw [if_neg hany]
        have hfalse : (counters gs r idx).any (fun c => decide (0 < c.remaining)) = false := by
          simpa using hany
        rw [roundEntries_nil _ _ (counters_any_false_drop gs r idx hfalse),
          roundsFromAux_eq_nil gs _ (r + 1) (counters_any_false_counts gs r idx hfalse)]
        rfl

/-- **Claim C3 (amended).** In INTERLEAVED mode the spawn queue interleaves the
wave's enemy groups in round-robin order (each round emitting one entry for
every group not yet exhausted), but the loop keeps a single shared clock: every
emitted entry is scheduled at the sum of the spawnDelays of all previously
emitted entries, the clock advancing after each entry by that entry's own
group's delay - not per-group clocks placing the r-th entry of a group at
r * spawnDelay. -/
theorem claim_C3_amended (wave : WaveDefinition) :
    buildInterleavedQueue wave = interleavedSharedClock wave.enemies := by
  rw [buildInterleavedQueue, interleavedSharedClock]
  cases hE : wave.enemies with
  | nil => norm_num [maxCount, initCounters, interLoopF, roundsFromAux, layTimes]
  | cons g gs' =>
      rw [← counters_init (g :: gs')]
      rw [interLoopF_spec (maxCount (g :: gs') * (g :: gs').length + (g :: gs').length + 1)
        (g :: gs') 0 0 0 (by simp) (by simp)]
      have hstep : roundsFromAux (g :: gs') (maxCount (g :: gs')) 0 =
          roundEntries (g :: gs') 0 ++
            roundsFromAux (g :: gs') (maxCount (g :: gs') - 1) 1 := by
        simpa using roundsFromAux_step (g :: gs') 0
      rw [List.drop_zero, hstep]

-- ===========================================================================
-- Claim C8: area-damage falloff and unconditional deactivation
-- ===========================================================================

theorem takeDamage_id (t : Target) (a : ℝ) : (t.takeDamage a).id = t.id := by
  unfold Target.takeDamage
  dsimp only
  split
  · rfl
  · split <;> rfl

theorem setTarget_map_id (ts : List Target) (t' : Target) :
    (setTarget ts t').map Target.id = ts.map Target.id := by
  unfold setTarget
  rw [List.map_map]
  apply List.map_congr_left
  intro t _
  by_cases h : t.id = t'.id
  · simp [Function.comp, h]
  · simp [Function.comp, h]

theorem mem_setTarget_of_ne (ts : List Target) (t t' : Target) (h : ¬t.id = t'.id)
    (hm : t ∈ ts) : t ∈ setTarget ts t' := by
  have hmm := List.mem_map_of_mem (fun u : Target => if u.id = t'.id then t' else u) hm
  simpa [setTarget, h] using hmm

theorem findTarget_mem_nodup : ∀ (ts : List Target) (t : Target),
    (ts.map Target.id).Nodup → t ∈ ts → findTarget ts t.id = some t
  | [], t, _, hm => absurd hm (by simp)
  | t0 :: ts, t, hnd, hm => by
      rcases List.mem_cons.mp hm with rfl | hm'
      · rw [findTarget, List.find?_cons_of_pos _ (by simp)]
      · have hnd2 : (t0.id :: ts.map Target.id).Nodup := by
          rw [List.map_cons] at hnd; exact hnd
        have hnd' := List.nodup_cons.mp hnd2
        have hne : (t0.id == t.id) = false := by
          simp only [beq_eq_false_iff_ne, ne_eq]
          intro he
          exact hnd'.1 (he ▸ List.mem_map_of_mem Target.id hm')
        rw [findTarget, List.find?_cons_of_neg _ (by simp [hne])]
        exact findTarget_mem_nodup ts t hnd'.2 hm'

theorem areaLoop_damaged_not_mem : ∀ (ids : List String) (amount : ℝ)
    (dtype : DamageType) (center : Position) (radius : ℝ) (tid : String), tid ∉ ids →
    ∀ (p : Projectile) (ts : List Target),
    (areaLoop amount dtype center radius ids p ts).2.2.filter (isDamagedFor tid) = []
  | [], _, _, _, _, _, _, _, _ => by simp [areaLoop]
  | id0 :: rest, amount, dtype, center, radius, tid, h, p, ts => by
      simp only [List.mem_cons, not_or] at h
      have h0F : (id0 == tid) = false := by
        simp only [beq_eq_false_iff_ne, ne_eq]
        exact fun he => h.1 he.symm
      have hIH := areaLoop_damaged_not_mem rest amount dtype center radius tid h.2
      simp only [areaLoop]
      cases hf : findTarget ts id0 with
      | none => simpa only [hf] using hIH p ts
      | some t0 =>
          simp only [hf]
          simp [List.filter_append, isDamagedFor, h0F,
            apply_ite (List.filter (isDamagedFor tid)), hIH]

theorem areaLoop_damaged_eq : ∀ (ids : List String) (amount : ℝ) (dtype : DamageType)
    (center : Position) (radius : ℝ) (t : Target), ids.Nodup → t.id ∈ ids →
    ∀ (ts : List Target), (ts.map Target.id).Nodup → t ∈ ts → ∀ (p : Projectile),
    (areaLoop amount dtype center radius ids p ts).2.2.filter (isDamagedFor t.id) =
      [CombatEvent.targetDamaged t.id (calculateDamage
        (amount * (1 - Real.sqrt ((t.x - center.x) ^ 2 + (t.y - center.y) ^ 2) /
          radius * (1 / 2))) dtype t.armor)]
  | [], _, _, _, _, _, _, hmem, _, _, _, _ => absurd hmem (by simp)
  | id0 :: rest, amount, dtype, center, radius, t, hnd, hmem, ts, hts, htm, p => by
      have hnd' := List.nodup_cons.mp hnd
      rcases List.mem_cons.mp hmem with heq | hmem'
      · subst heq
        have hf : findTarget ts t.id = some t := findTarget_mem_nodup ts t hts htm
        have hD := areaLoop_damaged_not_mem rest amount dtype center radius t.id hnd'.1
        simp only [areaLoop, hf]
        simp [List.filter_append, isDamagedFor,
          apply_ite (List.filter (isDamagedFor t.id)), hD]
      · have h0 : ¬id0 = t.id := fun he => hnd'.1 (he ▸ hmem')
        have h0F : (id0 == t.id) = false := by simp [h0]
        simp only [areaLoop]
        cases hf : findTarget ts id0 with
        | none =>
            simpa only [hf] using
              areaLoop_damaged_eq rest amount dtype center radius t hnd'.2 hmem' ts hts htm p
        | some t0 =>
            have ht0' := List.find?_some
              (show List.find? (fun u => u.id == id0) ts = some t0 from hf)
            have ht0 : t0.id = id0 := by simpa using ht0'
            have hIH : ∀ (a : ℝ) (p' : Projectile),
                (areaLoop amount dtype center radius rest p'
                    (setTarget ts (t0.takeDamage a))).2.2.filter (isDamagedFor t.id) =
                  [CombatEvent.targetDamaged t.id (calculateDamage
                    (amount * (1 - Real.sqrt ((t.x - center.x) ^ 2 + (t.y - center.y) ^ 2) /
                      radius * (1 / 2))) dtype t.armor)] := by
              intro a p'
              exact areaLoop_damaged_eq rest amount dtype center radius t hnd'.2 hmem'
                (setTarget ts (t0.takeDamage a))
                (by rw [setTarget_map_id]; exact hts)
                (mem_setTarget_of_ne ts t (t0.takeDamage a)
                  (by rw [takeDamage_id, ht0]; exact fun he => h0 he.symm) htm) p'
            simp only [hf]
            simp [List.filter_append, isDamagedFor, h0F,
              apply_ite (List.filter (isDamagedFor t.id)), hIH]

/-- **Claim C8.** For an active area-damage projectile that has reached its
target point, every alive registered target within areaRadius of the impact
point that the projectile can still hit receives exactly one target_damaged
event, whose amount is the base damage scaled by the linear falloff
1 - (distance / radius) * 0.5 and then run through the armor formula; and
the projectile is deactivated after resolving, regardless of its pierce
settings. -/
theorem claim_C8_area_falloff : ∀ (p : Projectile) (ts : List Target) (t : Target),
    (ts.map Target.id).Nodup → t ∈ ts → p.active = true →
    p.hasAreaDamage → p.hasReachedTarget → t.isAlive →
    isInRadius t p.getPosition p.areaRadius → p.canHitTarget t.id = true →
    (updateProj p ((getAliveTargets ts).map Target.id) ts).2.2.filter
        (isDamagedFor t.id) =
      [CombatEvent.targetDamaged t.id (calculateDamage
        (p.damage * (1 - Real.sqrt ((t.x - p.x) ^ 2 + (t.y - p.y) ^ 2) /
          p.areaRadius * (1 / 2))) (p.getDamageInfo).2 t.armor)] ∧
    (updateProj p ((getAliveTargets ts).map Target.id) ts).1.active = false := by
  intro p ts t hnd hmem hact harea hreach halive hrad hcan
  have hdisp : updateProj p ((getAliveTargets ts).map Target.id) ts =
      processAreaDamage p ((getAliveTargets ts).map Target.id) ts := by
    unfold updateProj
    rw [if_neg (by simp [hact]), if_pos ⟨harea, hreach⟩]
  rw [hdisp]
  unfold processAreaDamage
  dsimp only [Projectile.getDamageInfo, Projectile.getPosition]
  have hft : findTarget ts t.id = some t := findTarget_mem_nodup ts t hnd hmem
  have hsub : ((getAliveTargets ts).map Target.id).Sublist (ts.map Target.id) :=
    List.Sublist.map Target.id (List.filter_sublist ts)
  have hndAlive : ((getAliveTargets ts).map Target.id).Nodup :=
    List.Nodup.sublist hsub hnd
  have hmemAlive : t.id ∈ (getAliveTargets ts).map Target.id :=
    List.mem_map_of_mem Target.id
      (List.mem_filter.mpr ⟨hmem, by simpa using halive⟩)
  constructor
  · rw [List.filter_append]
    have h2 : List.filter (isDamagedFor t.id) [CombatEvent.projectileHit none] = [] := by
      simp [isDamagedFor]
    rw [h2, List.append_nil]
    refine areaLoop_damaged_eq _ _ _ _ _ t (List.Nodup.filter _ hndAlive) ?_ ts hnd hmem p
    refine List.mem_filter.mpr ⟨hmemAlive, ?_⟩
    have hrad' : isInRadius t ⟨p.x, p.y⟩ p.areaRadius := hrad
    simp only [hft]
    simp [hrad', hcan]
  · rfl

theorem claim_C8_witness :
    c8target.isAlive ∧ isInRadius c8target c8proj.getPosition c8proj.areaRadius ∧
    ((updateProj c8proj ((getAliveTargets [c8target]).map Target.id) [c8target]).2.2.filter
        (isDamagedFor c8target.id) =
      [CombatEvent.targetDamaged c8target.id (calculateDamage
        (c8proj.damage * (1 - Real.sqrt ((c8target.x - c8proj.x) ^ 2 +
          (c8target.y - c8proj.y) ^ 2) / c8proj.areaRadius * (1 / 2)))
        (c8proj.getDamageInfo).2 c8target.armor)] ∧
      (updateProj c8proj ((getAliveTargets [c8target]).map Target.id)
        [c8target]).1.active = false) :=
  ⟨⟨by norm_num [c8target], rfl⟩,
   by norm_num [c8target, c8proj, isInRadius, Projectile.getPosition],
   claim_C8_area_falloff c8proj [c8target] c8target
     (by simp) (by simp) rfl
     ⟨rfl, by norm_num [c8proj]⟩
     (by norm_num [c8proj, Projectile.hasReachedTarget, Real.sqrt_zero])
     ⟨by norm_num [c8target], rfl⟩
     (by norm_num [c8target, c8proj, isInRadius, Projectile.getPosition])
     (by norm_num [c8proj, c8target, Projectile.canHitTarget, Projectile.hasPierceLeft])⟩

-- ===========================================================================
-- Claim C10: double-processing of a target killed mid-frame
-- ===========================================================================

set_option maxHeartbeats 2000000 in
/-- **Claim C10.** One registered 5-health target and two active 10-damage
bullets overlapping it: within a single CombatSystem.update call the first
bullet's hit kills the target, yet the second bullet - iterating over the
alive-target list computed once at the start of the call, with no isAlive
re-check in processHit - still hits the now-dead target: takeDamage is
invoked on it again (a no-op on the dead body) and target_killed is emitted
twice for the same target id in one frame. -/
theorem claim_C10_double_kill :
    (combatUpdate [c10Bullet "P1", c10Bullet "P2"] [c10Target]).2.2 =
      [CombatEvent.projectileHit (some "T"), CombatEvent.targetDamaged "T" 10,
       CombatEvent.targetKilled "T", CombatEvent.projectileHit (some "T"),
       CombatEvent.targetDamaged "T" 10, CombatEvent.targetKilled "T"] ∧
    ((combatUpdate [c10Bullet "P1", c10Bullet "P2"] [c10Target]).2.2.filter
        (isKilledFor "T")).length = 2 := by
  have hA : (combatUpdate [c10Bullet "P1", c10Bullet "P2"] [c10Target]).2.2 =
      [CombatEvent.projectileHit (some "T"), CombatEvent.targetDamaged "T" 10,
       CombatEvent.targetKilled "T", CombatEvent.projectileHit (some "T"),
       CombatEvent.targetDamaged "T" 10, CombatEvent.targetKilled "T"] := by
    norm_num [combatUpdate, updateLoop, updateProj, hitLoop, processHit, getAliveTargets,
      findTarget, setTarget, c10Bullet, c10Target, Target.takeDamage, Target.isAlive,
      Projectile.getDamageInfo, Projectile.registerHit, Projectile.hasPierceLeft,
      Projectile.canHitTarget, Projectile.hasAreaDamage,
      checkCollision, Projectile.getEntityBounds, Target.getEntityBounds,
      calculateDamage, jsRound]
  refine ⟨hA, ?_⟩
  rw [hA]
  norm_num [isKilledFor]
end TD
